import Mathlib

/-!
# JxlWorker: the bridge between pixel buffers and the JPEG XL codec

A shallow embedding of `Sources/jxlc/JxlWorker.cpp`.

The codec (libjxl) is an external collaborator.  It is modelled by what the
bridge can observe of it:

* encoder side: every codec call the bridge makes is appended to a trace, and
  the status of a call is an arbitrary function of the trace so far (the call
  itself included); the answers to the output-pull calls are a script of
  `(status, bytes written)` pairs;
* decoder side: the statuses returned by `JxlDecoderProcessInput` are a script
  of events, each event carrying the answers to the calls its handler makes.

`std::vector<uint8_t>` is a list of bytes, `size_t` is 64 bits wide, `int` is
32 bits wide.
-/

namespace JxlWorker

/-! ## Machine integers and vectors -/

/-- Modulus of `size_t` arithmetic. -/
def sizeMod : Nat := 2 ^ 64

/-- Conversion of an `int` to `size_t` (two's complement, 64 bits). -/
def toSizeT (i : Int) : Nat := (i % (2 : Int) ^ 64).toNat

/-- Conversion of an `int` to `uint32_t`. -/
def toU32 (i : Int) : Nat := (i % (2 : Int) ^ 32).toNat

/-- Conversion of a `uint32_t` to `int` (two's complement, 32 bits). -/
def toInt32 (n : Nat) : Int :=
  if n % 2 ^ 32 < 2 ^ 31 then ((n % 2 ^ 32 : Nat) : Int)
  else ((n % 2 ^ 32 : Nat) : Int) - (2 : Int) ^ 32

/-- Multiplication of two `size_t` values. -/
def mulSz (a b : Nat) : Nat := (a * b) % sizeMod

/-- The vector after a `std::vector<uint8_t>::resize(n)` that does not throw:
the first `n` bytes are kept, new bytes are zero. -/
def resize (v : List Nat) (n : Nat) : List Nat :=
  v.take n ++ List.replicate (n - v.length) 0

/-- The vector after the codec has stored `bytes` at offset `offset`. -/
def writeAt (v : List Nat) (offset : Nat) (bytes : List Nat) : List Nat :=
  v.take offset ++ bytes ++ v.drop (offset + bytes.length)

/-- A `float`, carried by its bit pattern: the bridge only forwards it. -/
abbrev CFloat := Nat

/-! ## Enumerations -/

/-- Channel layout of the standard encoder (`JxlPixelType`). -/
inductive JxlPixelType
  | rgb
  | rgba
  deriving DecidableEq, Repr

/-- Compression mode (`JxlCompressionOption`). -/
inductive JxlCompressionOption
  | lossless
  | lossy
  deriving DecidableEq, Repr

/-- Pixel-format preference of the decoder (`JxlDecodingPixelFormat`). -/
inductive JxlDecodingPixelFormat
  | optimal
  | r8
  | r16
  deriving DecidableEq, Repr

/-- Transfer function tag of the HDR encoder. -/
inductive JxlTransferFunctionType
  | TransferSRGB
  | TransferLinear
  | TransferPQ
  | TransferHLG
  deriving DecidableEq, Repr

/-- Colour primaries tag of the HDR encoder. -/
inductive JxlColorPrimariesType
  | PrimariesSRGB
  | PrimariesDisplayP3
  | PrimariesBT2020
  deriving DecidableEq, Repr

/-- Sample types of the codec (`JxlDataType`). -/
inductive JxlDataType
  | JXL_TYPE_FLOAT
  | JXL_TYPE_UINT8
  | JXL_TYPE_UINT16
  | JXL_TYPE_FLOAT16
  deriving DecidableEq, Repr

/-- Colour spaces of the codec, as far as the bridge names them. -/
inductive JxlColorSpace
  | JXL_COLOR_SPACE_RGB
  | JXL_COLOR_SPACE_GRAY
  deriving DecidableEq, Repr

/-- White points of the codec, as far as the bridge names them. -/
inductive JxlWhitePoint
  | JXL_WHITE_POINT_D65
  | JXL_WHITE_POINT_CUSTOM
  deriving DecidableEq, Repr

/-- Primaries of the codec. -/
inductive JxlPrimaries
  | JXL_PRIMARIES_SRGB
  | JXL_PRIMARIES_CUSTOM
  | JXL_PRIMARIES_2100
  | JXL_PRIMARIES_P3
  deriving DecidableEq, Repr

/-- Transfer functions of the codec. -/
inductive JxlTransferFunction
  | JXL_TRANSFER_FUNCTION_709
  | JXL_TRANSFER_FUNCTION_UNKNOWN
  | JXL_TRANSFER_FUNCTION_LINEAR
  | JXL_TRANSFER_FUNCTION_SRGB
  | JXL_TRANSFER_FUNCTION_PQ
  | JXL_TRANSFER_FUNCTION_DCI
  | JXL_TRANSFER_FUNCTION_HLG
  | JXL_TRANSFER_FUNCTION_GAMMA
  deriving DecidableEq, Repr

/-- Rendering intents of the codec. -/
inductive JxlRenderingIntent
  | JXL_RENDERING_INTENT_PERCEPTUAL
  | JXL_RENDERING_INTENT_RELATIVE
  | JXL_RENDERING_INTENT_SATURATION
  | JXL_RENDERING_INTENT_ABSOLUTE
  deriving DecidableEq, Repr

/-- Frame options the bridge sets. -/
inductive JxlEncoderFrameSettingId
  | JXL_ENC_FRAME_SETTING_EFFORT
  | JXL_ENC_FRAME_SETTING_DECODING_SPEED
  deriving DecidableEq, Repr

/-- Status of an output-pull call. -/
inductive JxlEncoderStatus
  | JXL_ENC_SUCCESS
  | JXL_ENC_ERROR
  | JXL_ENC_NEED_MORE_OUTPUT
  deriving DecidableEq, Repr

/-! ## Codec records -/

/-- The fields of `JxlPixelFormat` the bridge varies; endianness is always
native and the alignment is always 0. -/
structure JxlPixelFormat where
  num_channels : Nat
  data_type : JxlDataType
  deriving DecidableEq, Repr

/-- The fields of `JxlBasicInfo` the bridge reads or writes. -/
structure JxlBasicInfo where
  xsize : Nat
  ysize : Nat
  bits_per_sample : Nat
  exponent_bits_per_sample : Nat
  uses_original_profile : Bool
  num_color_channels : Nat
  num_extra_channels : Nat
  alpha_bits : Nat
  alpha_exponent_bits : Nat
  orientation : Nat
  deriving DecidableEq, Repr

/-- The fields of `JxlExtraChannelInfo` the bridge writes. -/
structure JxlExtraChannelInfo where
  bits_per_sample : Nat
  exponent_bits_per_sample : Nat
  alpha_premultiplied : Bool
  deriving DecidableEq, Repr

/-- The enumerated fields of `JxlColorEncoding`. -/
structure JxlColorEncoding where
  color_space : JxlColorSpace
  white_point : JxlWhitePoint
  primaries : JxlPrimaries
  transfer_function : JxlTransferFunction
  rendering_intent : JxlRenderingIntent
  deriving DecidableEq, Repr

/-- The value of `JxlBitDepth`; its `type` is always
`JXL_BIT_DEPTH_FROM_PIXEL_FORMAT`. -/
structure JxlBitDepth where
  bits_per_sample : Nat
  exponent_bits_per_sample : Nat
  deriving DecidableEq, Repr

/-- The record initialisers of the codec library, whose results the bridge
then overwrites field by field. -/
structure JxlLib where
  /-- The record left by `JxlEncoderInitBasicInfo`. -/
  JxlEncoderInitBasicInfo : JxlBasicInfo
  /-- The record left by `JxlEncoderInitExtraChannelInfo(JXL_CHANNEL_ALPHA, _)`. -/
  JxlEncoderInitExtraChannelInfo : JxlExtraChannelInfo
  /-- The record left by `JxlColorEncodingSetToSRGB(_, is_gray)`. -/
  JxlColorEncodingSetToSRGB : Bool → JxlColorEncoding

/-! ## Encoder side: calls, trace, answers -/

/-- A call of the encoder API, with the arguments the bridge chooses. -/
inductive EncCall
  | JxlEncoderSetParallelRunner
  | JxlEncoderSetBasicInfo (info : JxlBasicInfo)
  | JxlEncoderSetExtraChannelInfo (index : Nat) (info : JxlExtraChannelInfo)
  | JxlEncoderSetICCProfile (icc : List Nat)
  | JxlEncoderSetColorEncoding (color : JxlColorEncoding)
  | JxlEncoderFrameSettingsCreate
  | JxlEncoderSetFrameBitDepth (depth : JxlBitDepth)
  | JxlEncoderSetFrameLossless (lossless : Bool)
  | JxlEncoderFrameSettingsSetOption (option : JxlEncoderFrameSettingId) (value : Int)
  | JxlEncoderSetFrameDistance (distance : CFloat)
  | JxlEncoderSetExtraChannelDistance (index : Nat) (distance : CFloat)
  | JxlEncoderAddImageFrame (format : JxlPixelFormat) (buffer : List Nat) (size : Nat)
  | JxlEncoderCloseInput
  | JxlEncoderProcessOutput (avail_out : Nat)
  deriving DecidableEq, Repr

/-- The codec's answers to the status-returning configuration calls: `true`
is `JXL_ENC_SUCCESS`.  The argument is the trace of calls so far, the call
being answered last. -/
abbrev EncCodec := List EncCall → Bool

/-- The codec's answer to one `JxlEncoderProcessOutput` call: the status and
the bytes it stored at the write cursor. -/
structure PullResponse where
  status : JxlEncoderStatus
  bytes : List Nat
  deriving DecidableEq, Repr

/-- What a call of an encode function leaves: the returned `bool` (`none`
when the answers supplied end before the function returns, or the codec
writes past the window it was given), the codec calls made, and the caller's
`compressed` vector. -/
structure EncResult where
  ret : Option Bool
  trace : List EncCall
  compressed : List Nat
  deriving DecidableEq, Repr

/-- The pattern `if (JXL_ENC_SUCCESS != Call(...)) return false;`. -/
def tryCall (codec : EncCodec) (tr : List EncCall) (c : EncCall) (compressed : List Nat)
    (k : List EncCall → EncResult) : EncResult :=
  if codec (tr ++ [c]) then k (tr ++ [c]) else ⟨some false, tr ++ [c], compressed⟩

/-- The pattern `if (cond) { if (JXL_ENC_SUCCESS != Call(...)) return false; }`. -/
def tryCallIf (cond : Bool) (codec : EncCodec) (tr : List EncCall) (c : EncCall)
    (compressed : List Nat) (k : List EncCall → EncResult) : EncResult :=
  if cond then tryCall codec tr c compressed k else k tr

/-- The output loop shared by both encoders, from the state after
`compressed->resize(64)`: `offset` is `next_out - compressed->data()`.  The
codec stores `p.bytes` at the cursor and advances it; the `avail_out` it
leaves is recomputed after a growth and unused after a terminal status. -/
def drainLoop (compressed : List Nat) (offset avail_out : Nat) (tr : List EncCall) :
    List PullResponse → EncResult
  | [] => ⟨none, tr, compressed⟩
  | p :: ps =>
    let tr := tr ++ [EncCall.JxlEncoderProcessOutput avail_out]
    if p.bytes.length ≤ avail_out then
      let compressed := writeAt compressed offset p.bytes
      let offset := offset + p.bytes.length
      match p.status with
      | .JXL_ENC_NEED_MORE_OUTPUT =>
        let compressed := resize compressed (compressed.length * 2)
        drainLoop compressed offset (compressed.length - offset) tr ps
      | .JXL_ENC_SUCCESS => ⟨some true, tr, resize compressed offset⟩
      | .JXL_ENC_ERROR => ⟨some false, tr, resize compressed offset⟩
    else ⟨none, tr, compressed⟩

/-- The standard encoder `EncodeJxlOneshot`. -/
def EncodeJxlOneshot (lib : JxlLib) (codec : EncCodec) (pulls : List PullResponse)
    (pixels : List Nat) (xsize ysize : Nat) (compressed : List Nat)
    (colorspace : JxlPixelType) (compressionOption : JxlCompressionOption)
    (compressionDistance : CFloat) (effort decodingSpeed : Int) : EncResult :=
  tryCall codec [] .JxlEncoderSetParallelRunner compressed fun tr =>
  let pixel_format : JxlPixelFormat :=
    match colorspace with
    | .rgb => ⟨3, .JXL_TYPE_UINT8⟩
    | .rgba => ⟨4, .JXL_TYPE_UINT8⟩
  let basicInfo : JxlBasicInfo :=
    { lib.JxlEncoderInitBasicInfo with
      xsize := xsize
      ysize := ysize
      bits_per_sample := 8
      uses_original_profile := if compressionOption = .lossy then false else true
      num_color_channels := 3 }
  let basicInfo : JxlBasicInfo :=
    if colorspace = .rgba then { basicInfo with num_extra_channels := 1, alpha_bits := 8 }
    else basicInfo
  tryCall codec tr (.JxlEncoderSetBasicInfo basicInfo) compressed fun tr =>
  let channelInfo : JxlExtraChannelInfo :=
    { lib.JxlEncoderInitExtraChannelInfo with bits_per_sample := 8, alpha_premultiplied := false }
  tryCallIf (colorspace = .rgba) codec tr (.JxlEncoderSetExtraChannelInfo 0 channelInfo)
    compressed fun tr =>
  let color_encoding := lib.JxlColorEncodingSetToSRGB (decide (pixel_format.num_channels < 3))
  tryCall codec tr (.JxlEncoderSetColorEncoding color_encoding) compressed fun tr =>
  let tr := tr ++ [EncCall.JxlEncoderFrameSettingsCreate]
  let depth : JxlBitDepth := ⟨8, 0⟩
  tryCall codec tr (.JxlEncoderSetFrameBitDepth depth) compressed fun tr =>
  tryCall codec tr (.JxlEncoderSetFrameLossless (compressionOption = .lossless))
    compressed fun tr =>
  tryCall codec tr (.JxlEncoderFrameSettingsSetOption .JXL_ENC_FRAME_SETTING_DECODING_SPEED
    decodingSpeed) compressed fun tr =>
  tryCall codec tr (.JxlEncoderSetFrameDistance compressionDistance) compressed fun tr =>
  tryCallIf (colorspace = .rgba) codec tr
    (.JxlEncoderSetExtraChannelDistance 0 compressionDistance) compressed fun tr =>
  tryCall codec tr (.JxlEncoderFrameSettingsSetOption .JXL_ENC_FRAME_SETTING_EFFORT effort)
    compressed fun tr =>
  tryCall codec tr (.JxlEncoderAddImageFrame pixel_format pixels pixels.length)
    compressed fun tr =>
  let tr := tr ++ [EncCall.JxlEncoderCloseInput]
  let compressed := resize compressed 64
  drainLoop compressed 0 (compressed.length - 0) tr pulls

/-- The local `bytesPerSample` of `EncodeJxlHDR`. -/
def bytesPerSample (containerBitsPerSample : Int) : Nat :=
  if containerBitsPerSample ≤ 8 then 1 else if containerBitsPerSample ≤ 16 then 2 else 4

/-- The local `expectedSize` of `EncodeJxlHDR`:
`static_cast<size_t>(xsize) * ysize * numChannels * bytesPerSample`, each
product taken in `size_t`. -/
def expectedSize (xsize ysize : Nat) (numChannels containerBitsPerSample : Int) : Nat :=
  mulSz (mulSz (mulSz (xsize % sizeMod) ysize) (toSizeT numChannels))
    (bytesPerSample containerBitsPerSample)

/-- The block `if (iccProfile && !iccProfile->empty()) { ... }` of
`EncodeJxlHDR`: the value of `colorEncodingSet` after it, and the trace. -/
def iccStep (codec : EncCodec) (tr : List EncCall) (iccProfile : Option (List Nat)) :
    Bool × List EncCall :=
  match iccProfile with
  | some icc =>
    if !icc.isEmpty then
      (codec (tr ++ [EncCall.JxlEncoderSetICCProfile icc]),
        tr ++ [EncCall.JxlEncoderSetICCProfile icc])
    else (false, tr)
  | none => (false, tr)

/-- The local `color_encoding` that `EncodeJxlHDR` builds inside
`if (!colorEncodingSet) { ... }` before handing it to the codec. -/
def parametricColorEncoding (lib : JxlLib) (numChannels : Int)
    (transferFunction : JxlTransferFunctionType) (colorPrimaries : JxlColorPrimariesType) :
    JxlColorEncoding :=
  if transferFunction = .TransferSRGB ∧ colorPrimaries = .PrimariesSRGB then
    lib.JxlColorEncodingSetToSRGB (decide (numChannels < 3))
  else
    { color_space := .JXL_COLOR_SPACE_RGB
      white_point := .JXL_WHITE_POINT_D65
      rendering_intent := .JXL_RENDERING_INTENT_PERCEPTUAL
      primaries :=
        match colorPrimaries with
        | .PrimariesBT2020 => .JXL_PRIMARIES_2100
        | .PrimariesDisplayP3 => .JXL_PRIMARIES_P3
        | .PrimariesSRGB => .JXL_PRIMARIES_SRGB
      transfer_function :=
        match transferFunction with
        | .TransferPQ => .JXL_TRANSFER_FUNCTION_PQ
        | .TransferHLG => .JXL_TRANSFER_FUNCTION_HLG
        | .TransferLinear => .JXL_TRANSFER_FUNCTION_LINEAR
        | .TransferSRGB => .JXL_TRANSFER_FUNCTION_SRGB }

/-- The HDR encoder `EncodeJxlHDR`, as defined in `JxlWorker.cpp` (the
definition has no EXIF or XMP parameter). -/
def EncodeJxlHDR (lib : JxlLib) (codec : EncCodec) (pulls : List PullResponse)
    (pixels : List Nat) (xsize ysize : Nat) (compressed : List Nat)
    (numChannels containerBitsPerSample originalBitsPerSample : Int) (isFloat : Bool)
    (iccProfile : Option (List Nat)) (transferFunction : JxlTransferFunctionType)
    (colorPrimaries : JxlColorPrimariesType) (compressionOption : JxlCompressionOption)
    (compressionDistance : CFloat) (effort decodingSpeed : Int) : EncResult :=
  tryCall codec [] .JxlEncoderSetParallelRunner compressed fun tr =>
  let basicInfo : JxlBasicInfo :=
    { lib.JxlEncoderInitBasicInfo with
      xsize := xsize
      ysize := ysize
      num_color_channels := 3
      bits_per_sample := toU32 originalBitsPerSample }
  let basicInfo : JxlBasicInfo :=
    if isFloat then
      { basicInfo with
        exponent_bits_per_sample := if containerBitsPerSample = 16 then 5 else 8 }
    else { basicInfo with exponent_bits_per_sample := 0 }
  let basicInfo : JxlBasicInfo :=
    { basicInfo with
      uses_original_profile := if compressionOption = .lossless then true else false }
  let basicInfo : JxlBasicInfo :=
    if numChannels = 4 then
      { basicInfo with
        num_extra_channels := 1
        alpha_bits := toU32 originalBitsPerSample
        alpha_exponent_bits := if isFloat then basicInfo.exponent_bits_per_sample else 0 }
    else basicInfo
  tryCall codec tr (.JxlEncoderSetBasicInfo basicInfo) compressed fun tr =>
  let channelInfo : JxlExtraChannelInfo :=
    { lib.JxlEncoderInitExtraChannelInfo with
      bits_per_sample := toU32 originalBitsPerSample
      exponent_bits_per_sample := if isFloat then basicInfo.exponent_bits_per_sample else 0
      alpha_premultiplied := false }
  tryCallIf (numChannels = 4) codec tr (.JxlEncoderSetExtraChannelInfo 0 channelInfo)
    compressed fun tr =>
  let colorEncodingSet := (iccStep codec tr iccProfile).1
  let tr := (iccStep codec tr iccProfile).2
  let color_encoding : JxlColorEncoding :=
    parametricColorEncoding lib numChannels transferFunction colorPrimaries
  tryCallIf (!colorEncodingSet) codec tr (.JxlEncoderSetColorEncoding color_encoding)
    compressed fun tr =>
  let tr := tr ++ [EncCall.JxlEncoderFrameSettingsCreate]
  let depth : JxlBitDepth :=
    { bits_per_sample := toU32 originalBitsPerSample
      exponent_bits_per_sample := if isFloat then basicInfo.exponent_bits_per_sample else 0 }
  tryCall codec tr (.JxlEncoderSetFrameBitDepth depth) compressed fun tr =>
  tryCall codec tr (.JxlEncoderSetFrameLossless (compressionOption = .lossless))
    compressed fun tr =>
  tryCall codec tr (.JxlEncoderFrameSettingsSetOption .JXL_ENC_FRAME_SETTING_EFFORT effort)
    compressed fun tr =>
  tryCall codec tr (.JxlEncoderFrameSettingsSetOption .JXL_ENC_FRAME_SETTING_DECODING_SPEED
    decodingSpeed) compressed fun tr =>
  tryCallIf (compressionOption ≠ .lossless) codec tr
    (.JxlEncoderSetFrameDistance compressionDistance) compressed fun tr =>
  tryCallIf (decide (compressionOption ≠ .lossless) && decide (numChannels = 4)) codec tr
    (.JxlEncoderSetExtraChannelDistance 0 compressionDistance) compressed fun tr =>
  let dataType : JxlDataType :=
    if isFloat then
      (if containerBitsPerSample = 16 then .JXL_TYPE_FLOAT16 else .JXL_TYPE_FLOAT)
    else (if containerBitsPerSample ≤ 8 then .JXL_TYPE_UINT8 else .JXL_TYPE_UINT16)
  let pixel_format : JxlPixelFormat := ⟨toU32 numChannels, dataType⟩
  if pixels.length ≠ expectedSize xsize ysize numChannels containerBitsPerSample then
    ⟨some false, tr, compressed⟩
  else
  tryCall codec tr (.JxlEncoderAddImageFrame pixel_format pixels pixels.length)
    compressed fun tr =>
  let tr := tr ++ [EncCall.JxlEncoderCloseInput]
  let compressed := resize compressed 64
  drainLoop compressed 0 compressed.length tr pulls

/-! ## Decoder side -/

/-- One status returned by `JxlDecoderProcessInput`, with the codec's answers
to the calls the handler of that status makes (`true` is `JXL_DEC_SUCCESS`).
`other` stands for every status code the loop does not name. -/
inductive DecEvent
  | JXL_DEC_ERROR
  | JXL_DEC_NEED_MORE_INPUT
  | JXL_DEC_BASIC_INFO (getBasicInfoOk : Bool) (info : JxlBasicInfo)
  | JXL_DEC_COLOR_ENCODING (iccSizeOk : Bool) (iccSize : Nat) (getIccOk : Bool) (icc : List Nat)
  | JXL_DEC_NEED_IMAGE_OUT_BUFFER (bufferSizeOk : Bool) (buffer_size : Nat) (setBufferOk : Bool)
  | JXL_DEC_FULL_IMAGE
  | JXL_DEC_SUCCESS
  | other (code : Nat)
  deriving DecidableEq, Repr

/-- The values behind the caller's out-pointers of `DecodeJpegXlOneShot`. -/
structure DecOut where
  pixels : List Nat
  xsize : Nat
  ysize : Nat
  iccProfile : List Nat
  depth : Int
  components : Int
  useFloats : Bool
  exposedOrientation : Nat
  deriving DecidableEq, Repr

/-- The variables of `DecodeJpegXlOneShot`: the caller's out-values and the
locals `format`, `bitDepth` and `hdrImage`. -/
structure DecState where
  pixels : List Nat
  xsize : Nat
  ysize : Nat
  iccProfile : List Nat
  depth : Int
  components : Int
  useFloats : Bool
  exposedOrientation : Nat
  format : JxlPixelFormat
  bitDepth : Int
  hdrImage : Bool
  deriving DecidableEq, Repr

/-- What a call of a decode function leaves: the returned `bool` (`none` when
the function returns nothing: the events supplied end before it returns, or a
vector `resize` throws) and the variables. -/
structure DecResult where
  ret : Option Bool
  state : DecState
  deriving DecidableEq, Repr

/-- The statuses of the three set-up calls of the decoder, and the largest
size to which the allocator lets a vector grow (a `resize` beyond it throws
`std::length_error` or `std::bad_alloc`). -/
structure DecSetup where
  subscribeEventsOk : Bool
  setParallelRunnerOk : Bool
  setUnpremultiplyAlphaOk : Bool
  allocLimit : Nat
  deriving DecidableEq, Repr

/-- Whether `v.resize(n)` throws: it has to grow the vector, and beyond what
the allocator grants. -/
def resizeThrows (allocLimit : Nat) (v : List Nat) (n : Nat) : Bool :=
  decide (v.length < n) && decide (allocLimit < n)

/-- The `format` chosen from the preference before the loop. -/
def initialFormat (pixelFormat : JxlDecodingPixelFormat) : JxlPixelFormat :=
  if pixelFormat = .optimal then ⟨4, .JXL_TYPE_UINT8⟩
  else if pixelFormat = .r16 then ⟨4, .JXL_TYPE_UINT16⟩
  else ⟨4, .JXL_TYPE_UINT8⟩

/-- The variables on entry to the loop of `DecodeJpegXlOneShot`. -/
def loopEntry (pixelFormat : JxlDecodingPixelFormat) (caller : DecOut) : DecState :=
  { pixels := caller.pixels
    xsize := caller.xsize
    ysize := caller.ysize
    iccProfile := caller.iccProfile
    depth := caller.depth
    components := caller.components
    useFloats := false
    exposedOrientation := caller.exposedOrientation
    format := initialFormat pixelFormat
    bitDepth := 8
    hdrImage := false }

/-- The handler of `JXL_DEC_BASIC_INFO` once `JxlDecoderGetBasicInfo` has
succeeded. -/
def onBasicInfo (pixelFormat : JxlDecodingPixelFormat) (s : DecState) (info : JxlBasicInfo) :
    DecState :=
  let bitDepth : Int := toInt32 info.bits_per_sample
  let baseComponents : Int :=
    if info.num_extra_channels > 0 then 4 else toInt32 info.num_color_channels
  let s : DecState :=
    { s with
      xsize := info.xsize
      ysize := info.ysize
      bitDepth := bitDepth
      depth := toInt32 info.bits_per_sample
      components := baseComponents
      exposedOrientation := info.orientation }
  if bitDepth > 8 ∧ pixelFormat = .optimal then
    { s with
      useFloats := true
      hdrImage := true
      format := ⟨toU32 baseComponents, .JXL_TYPE_UINT16⟩ }
  else if pixelFormat = .r16 then
    { s with
      useFloats := true
      hdrImage := true
      format := ⟨toU32 baseComponents, .JXL_TYPE_UINT16⟩ }
  else
    { s with
      depth := if pixelFormat = .r8 then 8 else s.depth
      format := { s.format with num_channels := toU32 baseComponents }
      useFloats := false }

/-- The byte count `*xsize * *ysize * (*components) * (hdrImage ? 2 : 1)`,
in `size_t` arithmetic. -/
def outBufferSize (s : DecState) : Nat :=
  mulSz (mulSz (mulSz s.xsize s.ysize) (toSizeT s.components)) (if s.hdrImage then 2 else 1)

/-- The loop of `DecodeJpegXlOneShot` over the statuses the codec returns.
A `resize` that throws ends the call without a return value. -/
def decodeLoop (allocLimit : Nat) (pixelFormat : JxlDecodingPixelFormat) (s : DecState) :
    List DecEvent → DecResult
  | [] => ⟨none, s⟩
  | .JXL_DEC_ERROR :: _ => ⟨some false, s⟩
  | .JXL_DEC_NEED_MORE_INPUT :: _ => ⟨some false, s⟩
  | .JXL_DEC_BASIC_INFO getBasicInfoOk info :: es =>
    if getBasicInfoOk then
      decodeLoop allocLimit pixelFormat (onBasicInfo pixelFormat s info) es
    else ⟨some false, s⟩
  | .JXL_DEC_COLOR_ENCODING iccSizeOk iccSize getIccOk icc :: es =>
    if iccSizeOk then
      if resizeThrows allocLimit s.iccProfile iccSize then ⟨none, s⟩
      else
        let buffer := resize s.iccProfile iccSize
        let s : DecState := { s with iccProfile := writeAt buffer 0 (icc.take buffer.length) }
        if getIccOk then decodeLoop allocLimit pixelFormat s es else ⟨some false, s⟩
    else decodeLoop allocLimit pixelFormat { s with iccProfile := resize s.iccProfile 0 } es
  | .JXL_DEC_NEED_IMAGE_OUT_BUFFER bufferSizeOk buffer_size setBufferOk :: es =>
    if bufferSizeOk then
      if buffer_size ≠ outBufferSize s then ⟨some false, s⟩
      else if resizeThrows allocLimit s.pixels (outBufferSize s) then ⟨none, s⟩
      else
        let s : DecState := { s with pixels := resize s.pixels (outBufferSize s) }
        if setBufferOk then decodeLoop allocLimit pixelFormat s es else ⟨some false, s⟩
    else ⟨some false, s⟩
  | .JXL_DEC_FULL_IMAGE :: es => decodeLoop allocLimit pixelFormat s es
  | .JXL_DEC_SUCCESS :: _ => ⟨some true, s⟩
  | .other _ :: _ => ⟨some false, s⟩

/-- The decoder `DecodeJpegXlOneShot`.  The bytes the codec later stores in
the pixel buffer it was handed do not change the buffer's length and are not
tracked. -/
def DecodeJpegXlOneShot (setup : DecSetup) (events : List DecEvent) (caller : DecOut)
    (pixelFormat : JxlDecodingPixelFormat) : DecResult :=
  let entry : DecState := { loopEntry pixelFormat caller with useFloats := caller.useFloats }
  if !setup.subscribeEventsOk then ⟨some false, entry⟩
  else if !setup.setParallelRunnerOk then ⟨some false, entry⟩
  else if !setup.setUnpremultiplyAlphaOk then ⟨some false, entry⟩
  else decodeLoop setup.allocLimit pixelFormat (loopEntry pixelFormat caller) events

/-! ## Predicates on decoder runs -/

/-- Whether the statuses the loop processes up to its first return are in
protocol order: exactly one basic-info status, at least one buffer request
after it, colour-encoding and full-image statuses anywhere, and then success.
`stage` is 0 before the basic-info status, 1 after it, 2 once a buffer request
has followed it. -/
def wellOrdered : Nat → List DecEvent → Bool
  | _, [] => false
  | stage, .JXL_DEC_BASIC_INFO _ _ :: es => stage == 0 && wellOrdered 1 es
  | stage, .JXL_DEC_NEED_IMAGE_OUT_BUFFER _ _ _ :: es => stage != 0 && wellOrdered 2 es
  | stage, .JXL_DEC_COLOR_ENCODING _ _ _ _ :: es => wellOrdered stage es
  | stage, .JXL_DEC_FULL_IMAGE :: es => wellOrdered stage es
  | stage, .JXL_DEC_SUCCESS :: _ => stage == 2
  | _, .JXL_DEC_ERROR :: _ => false
  | _, .JXL_DEC_NEED_MORE_INPUT :: _ => false
  | _, .other _ :: _ => false

/-- Whether no status in the list is a basic-info status. -/
def noBasicInfo : List DecEvent → Bool
  | [] => true
  | .JXL_DEC_BASIC_INFO _ _ :: _ => false
  | _ :: es => noBasicInfo es

/-- The invariant of the decode loop along a well-ordered run. -/
def DecInv (stage : Nat) (s : DecState) : Prop :=
  (stage = 0 → s.hdrImage = false) ∧ s.hdrImage = s.useFloats ∧
    (stage = 2 → s.pixels.length = outBufferSize s)

/-! ## Concrete codecs and inputs used to evaluate runs -/

/-- A caller that passes empty vectors and zeroed out-values. -/
def emptyCaller : DecOut :=
  { pixels := [], xsize := 0, ysize := 0, iccProfile := [], depth := 0, components := 0,
    useFloats := false, exposedOrientation := 0 }

/-- A decoder whose three set-up calls succeed, with an allocator that grants
every size up to `PTRDIFF_MAX`. -/
def setupOk : DecSetup := ⟨true, true, true, 2 ^ 63 - 1⟩

/-- A basic info of the given size, bit depth and channel counts. -/
def basicInfoOf (xsize ysize bits colorChannels extraChannels : Nat) : JxlBasicInfo :=
  { xsize := xsize, ysize := ysize, bits_per_sample := bits, exponent_bits_per_sample := 0,
    uses_original_profile := false, num_color_channels := colorChannels,
    num_extra_channels := extraChannels, alpha_bits := 0, alpha_exponent_bits := 0,
    orientation := 1 }

/-- The statuses of a decode of a 2x2 8-bit RGBA image without an embedded
ICC profile. -/
def sampleEvents : List DecEvent :=
  [.JXL_DEC_BASIC_INFO true (basicInfoOf 2 2 8 3 1), .JXL_DEC_COLOR_ENCODING false 0 false [],
    .JXL_DEC_NEED_IMAGE_OUT_BUFFER true 16 true, .JXL_DEC_FULL_IMAGE, .JXL_DEC_SUCCESS]

/-- The statuses of a decode of a 2x2 8-bit grayscale image without extra
channels and without an embedded ICC profile. -/
def grayEvents : List DecEvent :=
  [.JXL_DEC_BASIC_INFO true (basicInfoOf 2 2 8 1 0), .JXL_DEC_COLOR_ENCODING false 0 false [],
    .JXL_DEC_NEED_IMAGE_OUT_BUFFER true 4 true, .JXL_DEC_FULL_IMAGE, .JXL_DEC_SUCCESS]

/-- Output pulls that fill the first 64 bytes, then the next 64, then end
with 3 more bytes and success. -/
def samplePulls : List PullResponse :=
  [⟨.JXL_ENC_NEED_MORE_OUTPUT, List.replicate 64 7⟩,
    ⟨.JXL_ENC_NEED_MORE_OUTPUT, List.replicate 64 8⟩, ⟨.JXL_ENC_SUCCESS, [9, 9, 9]⟩]

/-- Output pulls that fill the first 64 bytes and then report an error. -/
def failingPulls : List PullResponse :=
  [⟨.JXL_ENC_NEED_MORE_OUTPUT, List.replicate 64 7⟩, ⟨.JXL_ENC_ERROR, []⟩]

/-- The 2x2 RGBA buffer `FF 00 00 FF` repeated four times. -/
def redPixels : List Nat :=
  [255, 0, 0, 255, 255, 0, 0, 255, 255, 0, 0, 255, 255, 0, 0, 255]

/-- An instance of the library initialisers (8-bit RGB defaults, sRGB with a
relative rendering intent), used to evaluate concrete runs. -/
def sampleLib : JxlLib :=
  { JxlEncoderInitBasicInfo :=
      { xsize := 0, ysize := 0, bits_per_sample := 8, exponent_bits_per_sample := 0,
        uses_original_profile := false, num_color_channels := 3, num_extra_channels := 0,
        alpha_bits := 0, alpha_exponent_bits := 0, orientation := 1 }
    JxlEncoderInitExtraChannelInfo :=
      { bits_per_sample := 8, exponent_bits_per_sample := 0, alpha_premultiplied := false }
    JxlColorEncodingSetToSRGB := fun is_gray =>
      { color_space := if is_gray then .JXL_COLOR_SPACE_GRAY else .JXL_COLOR_SPACE_RGB
        white_point := .JXL_WHITE_POINT_D65
        primaries := .JXL_PRIMARIES_SRGB
        transfer_function := .JXL_TRANSFER_FUNCTION_SRGB
        rendering_intent := .JXL_RENDERING_INTENT_RELATIVE } }

/-- A codec that accepts every configuration call. -/
def acceptAll : EncCodec := fun _ => true

/-- A codec that rejects the frame submission and accepts every other call. -/
def rejectFrame : EncCodec := fun tr =>
  match tr.getLast? with
  | some (.JxlEncoderAddImageFrame _ _ _) => false
  | _ => true

/-- A codec that rejects the ICC profile and accepts every other call. -/
def rejectICC : EncCodec := fun tr =>
  match tr.getLast? with
  | some (.JxlEncoderSetICCProfile _) => false
  | _ => true

/-! ## Predicates on encoder traces and results -/

/-- Whether a call is an output pull. -/
def EncCall.isProcessOutput : EncCall → Bool
  | .JxlEncoderProcessOutput _ => true
  | _ => false

/-- A trace without an output pull. -/
def NoPull (tr : List EncCall) : Prop := ∀ c ∈ tr, c.isProcessOutput = false

/-- Whether a call is a frame submission. -/
def EncCall.isAddImageFrame : EncCall → Bool
  | .JxlEncoderAddImageFrame _ _ _ => true
  | _ => false

/-- Whether a call is one `EncodeJxlHDR` makes after its size check: frame
submission, closing the input, output pull. -/
def EncCall.afterSizeCheck : EncCall → Bool
  | .JxlEncoderAddImageFrame _ _ _ => true
  | .JxlEncoderCloseInput => true
  | .JxlEncoderProcessOutput _ => true
  | _ => false

/-- A trace that starts with the parallel-runner call and holds no call made
after the size check. -/
def ConfigTrace (tr : List EncCall) : Prop :=
  tr.head? = some EncCall.JxlEncoderSetParallelRunner ∧ ∀ c ∈ tr, c.afterSizeCheck = false

/-- A result that reports failure, leaves `compressed` as the caller passed
it, and whose trace satisfies `T`. -/
def FailsWith (T : List EncCall → Prop) (compressed : List Nat) (r : EncResult) : Prop :=
  r.ret = some false ∧ r.compressed = compressed ∧ T r.trace

/-- The bytes the codec stored across the output pulls the loop makes, in
order: those of every pull up to and including the first terminal status. -/
def pulledBytes : List PullResponse → List Nat
  | [] => []
  | p :: ps =>
    p.bytes ++ (if p.status = .JXL_ENC_NEED_MORE_OUTPUT then pulledBytes ps else [])

/-- The status that ends the output loop: the first one that is not
`JXL_ENC_NEED_MORE_OUTPUT`. -/
def terminalStatus : List PullResponse → Option JxlEncoderStatus
  | [] => none
  | p :: ps =>
    if p.status = .JXL_ENC_NEED_MORE_OUTPUT then terminalStatus ps else some p.status

/-- Whether a call hands a parametric colour encoding to the codec. -/
def EncCall.isSetColorEncoding : EncCall → Bool
  | .JxlEncoderSetColorEncoding _ => true
  | _ => false

/-- The colour encodings handed to the codec by `JxlEncoderSetColorEncoding`,
in call order. -/
def colorEncodingCalls : List EncCall → List JxlColorEncoding
  | [] => []
  | .JxlEncoderSetColorEncoding c :: tr => c :: colorEncodingCalls tr
  | _ :: tr => colorEncodingCalls tr

/-- A trace whose `JxlEncoderSetColorEncoding` calls carry exactly the
encodings `cs`, in order. -/
def ColorCallsAre (cs : List JxlColorEncoding) (tr : List EncCall) : Prop :=
  colorEncodingCalls tr = cs

/-- Whether a call is one of the configuration calls `EncodeJxlHDR` makes
before it sets the colour encoding. -/
def EncCall.beforeColor : EncCall → Bool
  | .JxlEncoderSetParallelRunner => true
  | .JxlEncoderSetBasicInfo _ => true
  | .JxlEncoderSetExtraChannelInfo _ _ => true
  | _ => false

/-- The primaries the specification assigns to a primaries tag. -/
def specPrimaries : JxlColorPrimariesType → JxlPrimaries
  | .PrimariesSRGB => .JXL_PRIMARIES_SRGB
  | .PrimariesDisplayP3 => .JXL_PRIMARIES_P3
  | .PrimariesBT2020 => .JXL_PRIMARIES_2100

/-- The transfer function the specification assigns to a transfer tag. -/
def specTransferFunction : JxlTransferFunctionType → JxlTransferFunction
  | .TransferSRGB => .JXL_TRANSFER_FUNCTION_SRGB
  | .TransferLinear => .JXL_TRANSFER_FUNCTION_LINEAR
  | .TransferPQ => .JXL_TRANSFER_FUNCTION_PQ
  | .TransferHLG => .JXL_TRANSFER_FUNCTION_HLG

/-- A result whose `compressed` is `out` if it reports success. -/
def SuccessYields (out : List Nat) (r : EncResult) : Prop :=
  r.ret = some true → r.compressed = out

/-- A result that, if the output loop ran and ended with a status other than
success, reports failure with `compressed` holding the bytes stored so far. -/
def ErrorYields (pulls : List PullResponse) (r : EncResult) : Prop :=
  (∃ c ∈ r.trace, c.isProcessOutput = true) → ∀ b, r.ret = some b →
    terminalStatus pulls ≠ some JxlEncoderStatus.JXL_ENC_SUCCESS →
    b = false ∧ r.compressed = pulledBytes pulls

/-! ## The signature probe and the basic-info probe -/

/-- The result of the codec's `JxlSignatureCheck`. -/
inductive JxlSignature
  | JXL_SIG_NOT_ENOUGH_BYTES
  | JXL_SIG_INVALID
  | JXL_SIG_CODESTREAM
  | JXL_SIG_CONTAINER
  deriving DecidableEq, Repr

/-- The probe `isJXL`; the codec's `JxlSignatureCheck` is a parameter. -/
def isJXL (JxlSignatureCheck : List Nat → JxlSignature) (src : List Nat) : Bool :=
  if JxlSignature.JXL_SIG_INVALID = JxlSignatureCheck src then false else true

/-- The classification the codec documents for `JxlSignatureCheck`: a
codestream starts with `FF 0A`, a container with the 12 bytes
`00 00 00 0C 4A 58 4C 20 0D 0A 87 0A`, and a buffer that ends before the
signature can be told is reported as not enough bytes.  Used to evaluate
concrete runs. -/
def sampleSignatureCheck : List Nat → JxlSignature
  | [] => .JXL_SIG_NOT_ENOUGH_BYTES
  | 255 :: rest =>
    match rest with
    | [] => .JXL_SIG_NOT_ENOUGH_BYTES
    | b :: _ => if b = 10 then .JXL_SIG_CODESTREAM else .JXL_SIG_INVALID
  | 0 :: rest =>
    if rest.length < 11 then .JXL_SIG_NOT_ENOUGH_BYTES
    else if rest.take 11 = [0, 0, 12, 74, 88, 76, 32, 13, 10, 135, 10] then .JXL_SIG_CONTAINER
    else .JXL_SIG_INVALID
  | _ :: _ => .JXL_SIG_INVALID

/-- What a call of `DecodeBasicInfo` leaves: the returned `bool` (`none` when
no status is supplied), the values behind `xsize` and `ysize`, and the
statuses it took from the codec before returning. -/
structure ProbeResult where
  ret : Option Bool
  xsize : Nat
  ysize : Nat
  consumed : List DecEvent
  deriving DecidableEq, Repr

/-- The probe `DecodeBasicInfo`.  Every branch of its loop returns, so it
takes one status from the codec.  It has no pixel buffer. -/
def DecodeBasicInfo (setup : DecSetup) (events : List DecEvent) (xsize ysize : Nat) :
    ProbeResult :=
  if !setup.subscribeEventsOk then ⟨some false, xsize, ysize, []⟩
  else if !setup.setParallelRunnerOk then ⟨some false, xsize, ysize, []⟩
  else
    match events with
    | [] => ⟨none, xsize, ysize, []⟩
    | status :: _ =>
      match status with
      | .JXL_DEC_ERROR => ⟨some false, xsize, ysize, [status]⟩
      | .JXL_DEC_NEED_MORE_INPUT => ⟨some false, xsize, ysize, [status]⟩
      | .JXL_DEC_BASIC_INFO getBasicInfoOk info =>
        if getBasicInfoOk then ⟨some true, info.xsize, info.ysize, [status]⟩
        else ⟨some false, xsize, ysize, [status]⟩
      | .JXL_DEC_NEED_IMAGE_OUT_BUFFER _ _ _ => ⟨some false, xsize, ysize, [status]⟩
      | .JXL_DEC_FULL_IMAGE => ⟨some false, xsize, ysize, [status]⟩
      | .JXL_DEC_SUCCESS => ⟨some false, xsize, ysize, [status]⟩
      | _ => ⟨some false, xsize, ysize, [status]⟩

/-- Whether a status is a request for the image output buffer. -/
def DecEvent.isBufferRequest : DecEvent → Bool
  | .JXL_DEC_NEED_IMAGE_OUT_BUFFER _ _ _ => true
  | _ => false

/-- Whether a status is an error, a request for more input, or outside the
vocabulary of the loop. -/
def DecEvent.isFailure : DecEvent → Bool
  | .JXL_DEC_ERROR => true
  | .JXL_DEC_NEED_MORE_INPUT => true
  | .other _ => true
  | _ => false

/-- Whether every ICC size and every output-buffer size the codec reports in
the list is within what the allocator grants, so that no `resize` throws. -/
def sizesWithin (allocLimit : Nat) : List DecEvent → Bool
  | [] => true
  | .JXL_DEC_COLOR_ENCODING _ iccSize _ _ :: es =>
    decide (iccSize ≤ allocLimit) && sizesWithin allocLimit es
  | .JXL_DEC_NEED_IMAGE_OUT_BUFFER _ buffer_size _ :: es =>
    decide (buffer_size ≤ allocLimit) && sizesWithin allocLimit es
  | _ :: es => sizesWithin allocLimit es

/-- Whether the three set-up calls of the decoder succeed. -/
def DecSetup.callsOk (setup : DecSetup) : Bool :=
  setup.subscribeEventsOk && setup.setParallelRunnerOk && setup.setUnpremultiplyAlphaOk

/-- Whether no status in the list is the success status. -/
def noSuccess : List DecEvent → Bool
  | [] => true
  | .JXL_DEC_SUCCESS :: _ => false
  | _ :: es => noSuccess es

/-! ## The records the HDR encoder hands to the codec -/

/-- The `basicInfo` that `EncodeJxlHDR` passes to `JxlEncoderSetBasicInfo`. -/
def hdrBasicInfo (lib : JxlLib) (xsize ysize : Nat)
    (numChannels containerBitsPerSample originalBitsPerSample : Int) (isFloat : Bool)
    (compressionOption : JxlCompressionOption) : JxlBasicInfo :=
  let basicInfo : JxlBasicInfo :=
    { lib.JxlEncoderInitBasicInfo with
      xsize := xsize
      ysize := ysize
      num_color_channels := 3
      bits_per_sample := toU32 originalBitsPerSample }
  let basicInfo : JxlBasicInfo :=
    if isFloat then
      { basicInfo with
        exponent_bits_per_sample := if containerBitsPerSample = 16 then 5 else 8 }
    else { basicInfo with exponent_bits_per_sample := 0 }
  let basicInfo : JxlBasicInfo :=
    { basicInfo with
      uses_original_profile := if compressionOption = .lossless then true else false }
  if numChannels = 4 then
    { basicInfo with
      num_extra_channels := 1
      alpha_bits := toU32 originalBitsPerSample
      alpha_exponent_bits := if isFloat then basicInfo.exponent_bits_per_sample else 0 }
  else basicInfo

/-- The `channelInfo` that `EncodeJxlHDR` passes to
`JxlEncoderSetExtraChannelInfo`. -/
def hdrChannelInfo (lib : JxlLib) (xsize ysize : Nat)
    (numChannels containerBitsPerSample originalBitsPerSample : Int) (isFloat : Bool)
    (compressionOption : JxlCompressionOption) : JxlExtraChannelInfo :=
  { lib.JxlEncoderInitExtraChannelInfo with
    bits_per_sample := toU32 originalBitsPerSample
    exponent_bits_per_sample :=
      if isFloat then
        (hdrBasicInfo lib xsize ysize numChannels containerBitsPerSample originalBitsPerSample
          isFloat compressionOption).exponent_bits_per_sample
      else 0
    alpha_premultiplied := false }

/-- The `depth` that `EncodeJxlHDR` passes to `JxlEncoderSetFrameBitDepth`. -/
def hdrBitDepth (lib : JxlLib) (xsize ysize : Nat)
    (numChannels containerBitsPerSample originalBitsPerSample : Int) (isFloat : Bool)
    (compressionOption : JxlCompressionOption) : JxlBitDepth :=
  { bits_per_sample := toU32 originalBitsPerSample
    exponent_bits_per_sample :=
      if isFloat then
        (hdrBasicInfo lib xsize ysize numChannels containerBitsPerSample originalBitsPerSample
          isFloat compressionOption).exponent_bits_per_sample
      else 0 }

/-- The `pixel_format` that `EncodeJxlHDR` passes to `JxlEncoderAddImageFrame`. -/
def hdrPixelFormat (numChannels containerBitsPerSample : Int) (isFloat : Bool) :
    JxlPixelFormat :=
  ⟨toU32 numChannels,
    if isFloat then
      (if containerBitsPerSample = 16 then .JXL_TYPE_FLOAT16 else .JXL_TYPE_FLOAT)
    else (if containerBitsPerSample ≤ 8 then .JXL_TYPE_UINT8 else .JXL_TYPE_UINT16)⟩

/-- A call whose record argument is the one `EncodeJxlHDR` builds for it:
the basic info, the alpha channel info, the frame bit depth, and the pixel
format with the buffer that passed the size check. -/
def HdrCall (lib : JxlLib) (pixels : List Nat) (xsize ysize : Nat)
    (numChannels containerBitsPerSample originalBitsPerSample : Int) (isFloat : Bool)
    (compressionOption : JxlCompressionOption) : EncCall → Prop
  | .JxlEncoderSetBasicInfo info =>
    info = hdrBasicInfo lib xsize ysize numChannels containerBitsPerSample
      originalBitsPerSample isFloat compressionOption
  | .JxlEncoderSetExtraChannelInfo index info =>
    index = 0 ∧ info = hdrChannelInfo lib xsize ysize numChannels containerBitsPerSample
      originalBitsPerSample isFloat compressionOption
  | .JxlEncoderSetFrameBitDepth depth =>
    depth = hdrBitDepth lib xsize ysize numChannels containerBitsPerSample
      originalBitsPerSample isFloat compressionOption
  | .JxlEncoderAddImageFrame format buffer size =>
    format = hdrPixelFormat numChannels containerBitsPerSample isFloat ∧ buffer = pixels ∧
      size = pixels.length ∧
      pixels.length = expectedSize xsize ysize numChannels containerBitsPerSample
  | _ => True

/-- A trace all of whose calls carry the records `EncodeJxlHDR` builds. -/
def HdrTrace (lib : JxlLib) (pixels : List Nat) (xsize ysize : Nat)
    (numChannels containerBitsPerSample originalBitsPerSample : Int) (isFloat : Bool)
    (compressionOption : JxlCompressionOption) (tr : List EncCall) : Prop :=
  ∀ c ∈ tr, HdrCall lib pixels xsize ysize numChannels containerBitsPerSample
    originalBitsPerSample isFloat compressionOption c

/-- The exponent bits the specification assigns: 5 for a 16-bit float
container, 8 for a 32-bit (or any other) float container, 0 for integer
containers. -/
def specExponentBits (isFloat : Bool) (containerBitsPerSample : Int) : Nat :=
  if isFloat then (if containerBitsPerSample = 16 then 5 else 8) else 0

/-- The byte width of a sample of the given type. -/
def sizeOfDataType : JxlDataType → Nat
  | .JXL_TYPE_UINT8 => 1
  | .JXL_TYPE_UINT16 => 2
  | .JXL_TYPE_FLOAT16 => 2
  | .JXL_TYPE_FLOAT => 4

/-! ## The output loop -/

theorem resize_length (v : List Nat) (n : Nat) : (resize v n).length = n := by
  unfold resize
  simp
  omega

theorem drainLoop_trace (pulls : List PullResponse) :
    ∀ (compressed : List Nat) (offset avail_out : Nat) (tr : List EncCall),
      ∃ l, (drainLoop compressed offset avail_out tr pulls).trace = tr ++ l ∧
        ∀ c ∈ l, c.isProcessOutput = true := by
  induction pulls with
  | nil => intro compressed offset avail_out tr; exact ⟨[], by simp [drainLoop], by simp⟩
  | cons p ps ih =>
    intro compressed offset avail_out tr
    unfold drainLoop
    by_cases h : p.bytes.length ≤ avail_out
    · cases hs : p.status with
      | JXL_ENC_NEED_MORE_OUTPUT =>
        obtain ⟨l, hl, hall⟩ := ih
          (resize (writeAt compressed offset p.bytes)
            ((writeAt compressed offset p.bytes).length * 2))
          (offset + p.bytes.length)
          ((resize (writeAt compressed offset p.bytes)
            ((writeAt compressed offset p.bytes).length * 2)).length - (offset + p.bytes.length))
          (tr ++ [EncCall.JxlEncoderProcessOutput avail_out])
        refine ⟨EncCall.JxlEncoderProcessOutput avail_out :: l, ?_, ?_⟩
        · simp [h, hs, hl]
        · intro c hc
          rcases List.mem_cons.mp hc with rfl | hc
          · rfl
          · exact hall c hc
      | JXL_ENC_SUCCESS =>
        exact ⟨[EncCall.JxlEncoderProcessOutput avail_out], by simp [h, hs],
          by simp [EncCall.isProcessOutput]⟩
      | JXL_ENC_ERROR =>
        exact ⟨[EncCall.JxlEncoderProcessOutput avail_out], by simp [h, hs],
          by simp [EncCall.isProcessOutput]⟩
    · exact ⟨[EncCall.JxlEncoderProcessOutput avail_out], by simp [h],
        by simp [EncCall.isProcessOutput]⟩

/-! ## Reasoning along a chain of checked calls -/

theorem tryCall_ind (P : EncResult → Prop) {codec : EncCodec} {tr : List EncCall}
    {c : EncCall} {compressed : List Nat} {k : List EncCall → EncResult}
    (hfail : P ⟨some false, tr ++ [c], compressed⟩) (hk : P (k (tr ++ [c]))) :
    P (tryCall codec tr c compressed k) := by
  unfold tryCall
  split_ifs
  · exact hk
  · exact hfail

theorem tryCallIf_ind (P : EncResult → Prop) {cond : Bool} {codec : EncCodec}
    {tr : List EncCall} {c : EncCall} {compressed : List Nat} {k : List EncCall → EncResult}
    (hfail : P ⟨some false, tr ++ [c], compressed⟩) (hk : P (k (tr ++ [c])))
    (hskip : P (k tr)) :
    P (tryCallIf cond codec tr c compressed k) := by
  unfold tryCallIf
  split_ifs
  · exact tryCall_ind P hfail hk
  · exact hskip

theorem tryCall_rejected (P : EncResult → Prop) {codec : EncCodec} {tr : List EncCall}
    {c : EncCall} {compressed : List Nat} {k : List EncCall → EncResult}
    (h : codec (tr ++ [c]) = false) (hfail : P ⟨some false, tr ++ [c], compressed⟩) :
    P (tryCall codec tr c compressed k) := by
  unfold tryCall
  rw [h]
  simpa using hfail

theorem tryCall_accepted {codec : EncCodec} {tr : List EncCall}
    {c : EncCall} {compressed : List Nat} {k : List EncCall → EncResult}
    (h : codec (tr ++ [c]) = true) :
    tryCall codec tr c compressed k = k (tr ++ [c]) := by
  unfold tryCall
  rw [h]
  simp

theorem drainLoop_trace_head (pulls : List PullResponse) (compressed : List Nat)
    (offset avail_out : Nat) (tr : List EncCall) (h : tr ≠ []) :
    (drainLoop compressed offset avail_out tr pulls).trace.head? = tr.head? := by
  obtain ⟨l, hl, -⟩ := drainLoop_trace pulls compressed offset avail_out tr
  rw [hl]
  cases tr with
  | nil => exact absurd rfl h
  | cons a t => rfl

theorem drainLoop_trace_mem (pulls : List PullResponse) (compressed : List Nat)
    (offset avail_out : Nat) (tr : List EncCall) (c : EncCall)
    (h : c ∈ (drainLoop compressed offset avail_out tr pulls).trace) :
    c ∈ tr ∨ c.isProcessOutput = true := by
  obtain ⟨l, hl, hall⟩ := drainLoop_trace pulls compressed offset avail_out tr
  rw [hl] at h
  rcases List.mem_append.mp h with h | h
  · exact Or.inl h
  · exact Or.inr (hall c h)

theorem tryCall_inv (T : List EncCall → Prop) (R : EncResult → Prop) {codec : EncCodec}
    {tr : List EncCall} {c : EncCall} {compressed : List Nat} {k : List EncCall → EncResult}
    (hT : T (tr ++ [c])) (hfail : T (tr ++ [c]) → R ⟨some false, tr ++ [c], compressed⟩)
    (hk : ∀ tr', T tr' → R (k tr')) :
    R (tryCall codec tr c compressed k) := by
  unfold tryCall
  split_ifs
  · exact hk _ hT
  · exact hfail hT

theorem tryCallIf_inv (T : List EncCall → Prop) (R : EncResult → Prop) {cond : Bool}
    {codec : EncCodec} {tr : List EncCall} {c : EncCall} {compressed : List Nat}
    {k : List EncCall → EncResult}
    (hT0 : T tr) (hT : T (tr ++ [c]))
    (hfail : T (tr ++ [c]) → R ⟨some false, tr ++ [c], compressed⟩)
    (hk : ∀ tr', T tr' → R (k tr')) :
    R (tryCallIf cond codec tr c compressed k) := by
  unfold tryCallIf
  split_ifs
  · exact tryCall_inv T R hT hfail hk
  · exact hk _ hT0

theorem tryCall_accepted_inv (T : List EncCall → Prop) (R : EncResult → Prop)
    {codec : EncCodec} {tr : List EncCall} {c : EncCall} {compressed : List Nat}
    {k : List EncCall → EncResult}
    (h : codec (tr ++ [c]) = true) (hT : T (tr ++ [c])) (hk : ∀ tr', T tr' → R (k tr')) :
    R (tryCall codec tr c compressed k) := by
  rw [tryCall_accepted h]
  exact hk _ hT

theorem tryCallIf_accepted_inv (T : List EncCall → Prop) (R : EncResult → Prop)
    {cond : Bool} {codec : EncCodec} {tr : List EncCall} {c : EncCall}
    {compressed : List Nat} {k : List EncCall → EncResult}
    (h : codec (tr ++ [c]) = true) (hT0 : T tr) (hT : T (tr ++ [c]))
    (hk : ∀ tr', T tr' → R (k tr')) :
    R (tryCallIf cond codec tr c compressed k) := by
  unfold tryCallIf
  split_ifs
  · exact tryCall_accepted_inv T R h hT hk
  · exact hk _ hT0

theorem tryCall_pass (P : EncResult → Prop) {codec : EncCodec} {tr : List EncCall}
    {c : EncCall} {compressed : List Nat} {k : List EncCall → EncResult}
    (h : codec (tr ++ [c]) = true) (hk : P (k (tr ++ [c]))) :
    P (tryCall codec tr c compressed k) := by
  rw [tryCall_accepted h]
  exact hk

theorem tryCallIf_pass (P : EncResult → Prop) {cond : Bool} {codec : EncCodec}
    {tr : List EncCall} {c : EncCall} {compressed : List Nat} {k : List EncCall → EncResult}
    (h : codec (tr ++ [c]) = true) (hk : P (k (tr ++ [c]))) (hskip : P (k tr)) :
    P (tryCallIf cond codec tr c compressed k) := by
  unfold tryCallIf
  split_ifs
  · exact tryCall_pass P h hk
  · exact hskip

theorem drainLoop_trace_sub (pulls : List PullResponse) (compressed : List Nat)
    (offset avail_out : Nat) (tr : List EncCall) (c : EncCall) (h : c ∈ tr) :
    c ∈ (drainLoop compressed offset avail_out tr pulls).trace := by
  obtain ⟨l, hl, -⟩ := drainLoop_trace pulls compressed offset avail_out tr
  rw [hl]
  exact List.mem_append_left l h

theorem configTrace_snoc {tr : List EncCall} (h : ConfigTrace tr) (c : EncCall)
    (hc : c.afterSizeCheck = false) : ConfigTrace (tr ++ [c]) := by
  obtain ⟨h1, h2⟩ := h
  refine ⟨?_, ?_⟩
  · cases tr with
    | nil => simp at h1
    | cons a t => simpa using h1
  · intro d hd
    rcases List.mem_append.mp hd with hd | hd
    · exact h2 d hd
    · simp at hd
      rw [hd]
      exact hc

theorem configTrace_iccStep {tr : List EncCall} (h : ConfigTrace tr) (codec : EncCodec)
    (iccProfile : Option (List Nat)) : ConfigTrace (iccStep codec tr iccProfile).2 := by
  unfold JxlWorker.iccStep
  rcases iccProfile with _ | icc
  · exact h
  · by_cases he : icc.isEmpty = true
    · simpa [he] using h
    · simpa [he] using configTrace_snoc h (EncCall.JxlEncoderSetICCProfile icc) rfl

/-! ## The standard encoder and the buffer length -/

/-- C1, counterexample: a 2x2 RGBA call whose buffer has 15 bytes instead of
16 issues codec calls and, when the codec accepts them, returns success. -/
theorem EncodeJxlOneshot_short_buffer_accepted :
    (List.replicate 15 255).length + 1 = 2 * 2 * 4 * 1 ∧
    (EncodeJxlOneshot sampleLib acceptAll [⟨.JXL_ENC_SUCCESS, [255, 10]⟩]
      (List.replicate 15 255) 2 2 [] .rgba .lossless 0 7 0).ret = some true ∧
    (EncodeJxlOneshot sampleLib acceptAll [⟨.JXL_ENC_SUCCESS, [255, 10]⟩]
      (List.replicate 15 255) 2 2 [] .rgba .lossless 0 7 0).trace.length = 14 := by
  decide

set_option maxHeartbeats 1000000 in
/-- C1, amended: `EncodeJxlOneshot` makes no check of the buffer length of
its own and leaves it to the codec.  Whatever the buffer length: the
parallel-runner call is always made first; a frame submission in the trace
carries the buffer unchanged, with its actual length; when the codec rejects
the frame submission the call returns failure, pulls no output and leaves
`compressed` untouched; when the codec accepts the configuration calls the
buffer does reach the frame submission, with the pixel format of the channel
layout; and when the codec accepts every call and its first output pull
reports success within the 64 bytes offered, the call returns success. -/
theorem EncodeJxlOneshot_size_left_to_codec (lib : JxlLib) (codec : EncCodec)
    (pulls : List PullResponse) (pixels : List Nat) (xsize ysize : Nat)
    (compressed : List Nat) (colorspace : JxlPixelType)
    (compressionOption : JxlCompressionOption) (compressionDistance : CFloat)
    (effort decodingSpeed : Int) :
    (EncodeJxlOneshot lib codec pulls pixels xsize ysize compressed colorspace
        compressionOption compressionDistance effort decodingSpeed).trace.head?
      = some EncCall.JxlEncoderSetParallelRunner ∧
    (∀ format buffer size, EncCall.JxlEncoderAddImageFrame format buffer size ∈
        (EncodeJxlOneshot lib codec pulls pixels xsize ysize compressed colorspace
          compressionOption compressionDistance effort decodingSpeed).trace →
        buffer = pixels ∧ size = pixels.length) ∧
    ((∀ tr format buffer size,
        codec (tr ++ [EncCall.JxlEncoderAddImageFrame format buffer size]) = false) →
      (EncodeJxlOneshot lib codec pulls pixels xsize ysize compressed colorspace
          compressionOption compressionDistance effort decodingSpeed).ret = some false ∧
      (EncodeJxlOneshot lib codec pulls pixels xsize ysize compressed colorspace
          compressionOption compressionDistance effort decodingSpeed).compressed = compressed ∧
      ∀ c ∈ (EncodeJxlOneshot lib codec pulls pixels xsize ysize compressed colorspace
          compressionOption compressionDistance effort decodingSpeed).trace,
        c.isProcessOutput = false) ∧
    ((∀ tr c, c.isAddImageFrame = false → codec (tr ++ [c]) = true) →
      EncCall.JxlEncoderAddImageFrame
          ⟨if colorspace = .rgba then 4 else 3, .JXL_TYPE_UINT8⟩ pixels pixels.length ∈
        (EncodeJxlOneshot lib codec pulls pixels xsize ysize compressed colorspace
          compressionOption compressionDistance effort decodingSpeed).trace) ∧
    ((∀ tr, codec tr = true) → ∀ bytes rest,
      pulls = ⟨.JXL_ENC_SUCCESS, bytes⟩ :: rest → bytes.length ≤ 64 →
      (EncodeJxlOneshot lib codec pulls pixels xsize ysize compressed colorspace
          compressionOption compressionDistance effort decodingSpeed).ret = some true) := by
  refine ⟨?_, ?_, ?_, ?_, ?_⟩
  · unfold EncodeJxlOneshot
    repeat' first
      | apply tryCall_ind (fun r => r.trace.head? = some EncCall.JxlEncoderSetParallelRunner)
      | apply tryCallIf_ind (fun r => r.trace.head? = some EncCall.JxlEncoderSetParallelRunner)
    all_goals first
      | (simp; done)
      | (rw [drainLoop_trace_head _ _ _ _ _ (by simp)]; simp)
  · unfold EncodeJxlOneshot
    repeat' first
      | apply tryCall_ind (fun r => ∀ format buffer size,
          EncCall.JxlEncoderAddImageFrame format buffer size ∈ r.trace →
            buffer = pixels ∧ size = pixels.length)
      | apply tryCallIf_ind (fun r => ∀ format buffer size,
          EncCall.JxlEncoderAddImageFrame format buffer size ∈ r.trace →
            buffer = pixels ∧ size = pixels.length)
    all_goals first
      | (simp; done)
      | (intro format buffer size hmem
         rcases drainLoop_trace_mem _ _ _ _ _ _ hmem with h | h
         · simp at h
           exact ⟨h.2.1, h.2.2⟩
         · simp [EncCall.isProcessOutput] at h)
  · intro hrej
    unfold EncodeJxlOneshot
    repeat' first
      | apply tryCall_rejected (fun r => r.ret = some false ∧ r.compressed = compressed ∧
          ∀ c ∈ r.trace, c.isProcessOutput = false) (hrej _ _ _ _)
      | apply tryCall_ind (fun r => r.ret = some false ∧ r.compressed = compressed ∧
          ∀ c ∈ r.trace, c.isProcessOutput = false)
      | apply tryCallIf_ind (fun r => r.ret = some false ∧ r.compressed = compressed ∧
          ∀ c ∈ r.trace, c.isProcessOutput = false)
    all_goals simp [EncCall.isProcessOutput]
  · intro hacc
    generalize ht : EncCall.JxlEncoderAddImageFrame
      ⟨if colorspace = .rgba then 4 else 3, .JXL_TYPE_UINT8⟩ pixels pixels.length = t
    unfold EncodeJxlOneshot
    repeat' first
      | refine tryCall_pass (fun r => t ∈ r.trace) (hacc _ _ rfl) ?_
      | refine tryCallIf_pass (fun r => t ∈ r.trace) (hacc _ _ rfl) ?_ ?_
    all_goals
      refine tryCall_ind (fun r => t ∈ r.trace) ?_ ?_
    all_goals first
      | (apply drainLoop_trace_sub
         subst ht
         cases colorspace <;> simp)
      | (subst ht
         cases colorspace <;> simp)
  · intro hall bytes rest hpulls hlen
    subst hpulls
    unfold EncodeJxlOneshot
    repeat' first
      | refine tryCall_pass (fun r => r.ret = some true) (hall _) ?_
      | refine tryCallIf_pass (fun r => r.ret = some true) (hall _) ?_ ?_
    all_goals simp [drainLoop, resize_length, hlen]

/-- C1, witness: with a codec that rejects the frame submission, the 15-byte
2x2 RGBA call hands its 15 bytes to the frame submission and returns
failure. -/
theorem EncodeJxlOneshot_size_left_to_codec_witness :
    (EncodeJxlOneshot sampleLib rejectFrame [] (List.replicate 15 255) 2 2 [] .rgba
      .lossless 0 7 0).ret = some false ∧
    EncCall.JxlEncoderAddImageFrame ⟨4, .JXL_TYPE_UINT8⟩ (List.replicate 15 255) 15 ∈
      (EncodeJxlOneshot sampleLib rejectFrame [] (List.replicate 15 255) 2 2 [] .rgba
        .lossless 0 7 0).trace :=
  ⟨((EncodeJxlOneshot_size_left_to_codec sampleLib rejectFrame [] (List.replicate 15 255) 2 2 []
      .rgba .lossless 0 7 0).2.2.1 (by intro tr format buffer size; simp [rejectFrame])).1,
    (EncodeJxlOneshot_size_left_to_codec sampleLib rejectFrame [] (List.replicate 15 255) 2 2 []
      .rgba .lossless 0 7 0).2.2.2.1
      (by intro tr c hc; cases c <;> simp [rejectFrame, EncCall.isAddImageFrame] at hc ⊢)⟩

/-! ## The HDR encoder and the buffer length -/

theorem expectedSize_eq (xsize ysize : Nat) (numChannels containerBitsPerSample : Int) :
    expectedSize xsize ysize numChannels containerBitsPerSample =
      (xsize * ysize * toSizeT numChannels * bytesPerSample containerBitsPerSample)
        % 2 ^ 64 := by
  unfold expectedSize mulSz sizeMod
  simp [Nat.mul_mod, Nat.mod_mod]

/-- C2, counterexample: a 1x1 RGB 8-bit call with an empty buffer (3 bytes
expected) has issued eight codec calls when it returns false. -/
theorem EncodeJxlHDR_mismatch_after_configuration :
    (EncodeJxlHDR sampleLib acceptAll [] [] 1 1 [] 3 8 8 false none .TransferSRGB
      .PrimariesSRGB .lossless 0 7 0).ret = some false ∧
    (EncodeJxlHDR sampleLib acceptAll [] [] 1 1 [] 3 8 8 false none .TransferSRGB
      .PrimariesSRGB .lossless 0 7 0).trace.length = 8 ∧
    (EncodeJxlHDR sampleLib acceptAll [] [] 1 1 [] 3 8 8 false none .TransferSRGB
      .PrimariesSRGB .lossless 0 7 0).trace.head? = some EncCall.JxlEncoderSetParallelRunner := by
  decide

/-- C2, amended: when the buffer length differs from the expected size as the
code computes it (the product `xsize*ysize*numChannels*bytesPerSample` in
`size_t` arithmetic), `EncodeJxlHDR` returns false without submitting a frame,
closing the input or pulling output, and leaves `compressed` untouched; the
configuration calls that precede the check have been issued, the first of
them always. -/
theorem EncodeJxlHDR_size_mismatch (lib : JxlLib) (codec : EncCodec)
    (pulls : List PullResponse) (pixels : List Nat) (xsize ysize : Nat)
    (compressed : List Nat) (numChannels containerBitsPerSample originalBitsPerSample : Int)
    (isFloat : Bool) (iccProfile : Option (List Nat))
    (transferFunction : JxlTransferFunctionType) (colorPrimaries : JxlColorPrimariesType)
    (compressionOption : JxlCompressionOption) (compressionDistance : CFloat)
    (effort decodingSpeed : Int)
    (h : pixels.length ≠
      (xsize * ysize * toSizeT numChannels * bytesPerSample containerBitsPerSample) % 2 ^ 64) :
    (EncodeJxlHDR lib codec pulls pixels xsize ysize compressed numChannels
        containerBitsPerSample originalBitsPerSample isFloat iccProfile transferFunction
        colorPrimaries compressionOption compressionDistance effort decodingSpeed).ret
      = some false ∧
    (EncodeJxlHDR lib codec pulls pixels xsize ysize compressed numChannels
        containerBitsPerSample originalBitsPerSample isFloat iccProfile transferFunction
        colorPrimaries compressionOption compressionDistance effort decodingSpeed).compressed
      = compressed ∧
    (EncodeJxlHDR lib codec pulls pixels xsize ysize compressed numChannels
        containerBitsPerSample originalBitsPerSample isFloat iccProfile transferFunction
        colorPrimaries compressionOption compressionDistance effort decodingSpeed).trace.head?
      = some EncCall.JxlEncoderSetParallelRunner ∧
    ∀ c ∈ (EncodeJxlHDR lib codec pulls pixels xsize ysize compressed numChannels
        containerBitsPerSample originalBitsPerSample isFloat iccProfile transferFunction
        colorPrimaries compressionOption compressionDistance effort decodingSpeed).trace,
      c.afterSizeCheck = false := by
  rw [← expectedSize_eq] at h
  have hfail : ∀ tr : List EncCall, ConfigTrace tr →
      FailsWith ConfigTrace compressed ⟨some false, tr, compressed⟩ :=
    fun tr hT => ⟨rfl, rfl, hT⟩
  have key : FailsWith ConfigTrace compressed
      (EncodeJxlHDR lib codec pulls pixels xsize ysize compressed numChannels
        containerBitsPerSample originalBitsPerSample isFloat iccProfile transferFunction
        colorPrimaries compressionOption compressionDistance effort decodingSpeed) := by
    unfold EncodeJxlHDR
    refine tryCall_inv ConfigTrace (FailsWith ConfigTrace compressed) ?_ (hfail _) fun tr hT => ?_
    · exact ⟨rfl, by simp [EncCall.afterSizeCheck]⟩
    refine tryCall_inv ConfigTrace (FailsWith ConfigTrace compressed) ?_ (hfail _) fun tr hT => ?_
    · exact configTrace_snoc hT _ rfl
    refine tryCallIf_inv ConfigTrace (FailsWith ConfigTrace compressed) hT ?_ (hfail _) fun tr hT => ?_
    · exact configTrace_snoc hT _ rfl
    refine tryCallIf_inv ConfigTrace (FailsWith ConfigTrace compressed) (configTrace_iccStep hT _ _) ?_ (hfail _) fun tr hT => ?_
    · exact configTrace_snoc (configTrace_iccStep hT _ _) _ rfl
    refine tryCall_inv ConfigTrace (FailsWith ConfigTrace compressed) ?_ (hfail _) fun tr hT => ?_
    · exact configTrace_snoc (configTrace_snoc hT EncCall.JxlEncoderFrameSettingsCreate rfl) _ rfl
    refine tryCall_inv ConfigTrace (FailsWith ConfigTrace compressed) ?_ (hfail _) fun tr hT => ?_
    · exact configTrace_snoc hT _ rfl
    refine tryCall_inv ConfigTrace (FailsWith ConfigTrace compressed) ?_ (hfail _) fun tr hT => ?_
    · exact configTrace_snoc hT _ rfl
    refine tryCall_inv ConfigTrace (FailsWith ConfigTrace compressed) ?_ (hfail _) fun tr hT => ?_
    · exact configTrace_snoc hT _ rfl
    refine tryCallIf_inv ConfigTrace (FailsWith ConfigTrace compressed) hT ?_ (hfail _) fun tr hT => ?_
    · exact configTrace_snoc hT _ rfl
    refine tryCallIf_inv ConfigTrace (FailsWith ConfigTrace compressed) hT ?_ (hfail _) fun tr hT => ?_
    · exact configTrace_snoc hT _ rfl
    simp only [if_pos h]
    exact hfail _ hT
  exact ⟨key.1, key.2.1, key.2.2.1, key.2.2.2⟩

/-- C2, witness: the 1x1 RGB call with an empty buffer. -/
theorem EncodeJxlHDR_size_mismatch_witness :
    (EncodeJxlHDR sampleLib acceptAll [] [] 1 1 [] 3 8 8 false none .TransferSRGB
      .PrimariesSRGB .lossless 0 7 0).ret = some false :=
  (EncodeJxlHDR_size_mismatch sampleLib acceptAll [] [] 1 1 [] 3 8 8 false none .TransferSRGB
    .PrimariesSRGB .lossless 0 7 0 (by decide)).1

/-! ## The decode loop and the length of the pixel buffer -/

theorem decodeLoop_length (allocLimit : Nat) (pixelFormat : JxlDecodingPixelFormat)
    (events : List DecEvent) :
    ∀ (stage : Nat) (s : DecState), wellOrdered stage events = true → DecInv stage s →
      (decodeLoop allocLimit pixelFormat s events).ret = some true →
      (decodeLoop allocLimit pixelFormat s events).state.pixels.length =
          outBufferSize (decodeLoop allocLimit pixelFormat s events).state ∧
        (decodeLoop allocLimit pixelFormat s events).state.hdrImage =
          (decodeLoop allocLimit pixelFormat s events).state.useFloats := by
  induction events with
  | nil => intro stage s hord; simp [wellOrdered] at hord
  | cons e es ih =>
    intro stage s hord hinv hret
    cases e with
    | JXL_DEC_ERROR => simp [wellOrdered] at hord
    | JXL_DEC_NEED_MORE_INPUT => simp [wellOrdered] at hord
    | other code => simp [wellOrdered] at hord
    | JXL_DEC_SUCCESS =>
      simp [wellOrdered] at hord
      simp only [decodeLoop]
      exact ⟨hinv.2.2 hord, hinv.2.1⟩
    | JXL_DEC_FULL_IMAGE =>
      simp only [wellOrdered] at hord
      simp only [decodeLoop] at hret ⊢
      exact ih stage s hord hinv hret
    | JXL_DEC_BASIC_INFO ok info =>
      simp only [wellOrdered, Bool.and_eq_true, beq_iff_eq] at hord
      obtain ⟨h0, hord⟩ := hord
      cases ok with
      | false => simp [decodeLoop] at hret
      | true =>
        simp only [decodeLoop, if_true] at hret ⊢
        refine ih 1 _ hord ?_ hret
        have hh := hinv.1 h0
        refine ⟨by simp, ?_, by simp⟩
        unfold onBasicInfo
        simp only []
        split_ifs <;> simp [hh]
    | JXL_DEC_COLOR_ENCODING sizeOk iccSize getOk icc =>
      simp only [wellOrdered] at hord
      cases sizeOk with
      | false =>
        simp only [decodeLoop] at hret ⊢
        exact ih stage _ hord hinv hret
      | true =>
        by_cases ht : resizeThrows allocLimit s.iccProfile iccSize = true
        · simp [decodeLoop, ht] at hret
        · cases getOk with
          | false => simp [decodeLoop, ht] at hret
          | true =>
            simp only [decodeLoop, if_true, ht, Bool.false_eq_true, if_false] at hret ⊢
            exact ih stage _ hord hinv hret
    | JXL_DEC_NEED_IMAGE_OUT_BUFFER sizeOk n setOk =>
      simp only [wellOrdered, Bool.and_eq_true, bne_iff_ne] at hord
      obtain ⟨h0, hord⟩ := hord
      cases sizeOk with
      | false => simp [decodeLoop] at hret
      | true =>
        by_cases hn : n = outBufferSize s
        · by_cases ht : resizeThrows allocLimit s.pixels (outBufferSize s) = true
          · simp [decodeLoop, hn, ht] at hret
          · cases setOk with
            | false => simp [decodeLoop, hn, ht] at hret
            | true =>
              simp only [decodeLoop, if_true, hn, ne_eq, not_true_eq_false, if_false, ht,
                Bool.false_eq_true] at hret ⊢
              refine ih 2 _ hord ?_ hret
              refine ⟨by simp, hinv.2.1, fun _ => ?_⟩
              rw [resize_length]
              rfl
        · simp [decodeLoop, hn] at hret

/-- C3, counterexample: a basic-info status followed at once by success
makes the decoder return true for a 2x2 three-channel 8-bit image with an
empty pixel buffer, where 12 bytes are claimed. -/
theorem DecodeJpegXlOneShot_success_without_buffer :
    (DecodeJpegXlOneShot setupOk
      [.JXL_DEC_BASIC_INFO true (basicInfoOf 2 2 8 3 0), .JXL_DEC_SUCCESS]
      emptyCaller .optimal).ret = some true ∧
    (DecodeJpegXlOneShot setupOk
      [.JXL_DEC_BASIC_INFO true (basicInfoOf 2 2 8 3 0), .JXL_DEC_SUCCESS]
      emptyCaller .optimal).state.pixels.length = 0 ∧
    (DecodeJpegXlOneShot setupOk
      [.JXL_DEC_BASIC_INFO true (basicInfoOf 2 2 8 3 0), .JXL_DEC_SUCCESS]
      emptyCaller .optimal).state.xsize = 2 ∧
    (DecodeJpegXlOneShot setupOk
      [.JXL_DEC_BASIC_INFO true (basicInfoOf 2 2 8 3 0), .JXL_DEC_SUCCESS]
      emptyCaller .optimal).state.ysize = 2 ∧
    (DecodeJpegXlOneShot setupOk
      [.JXL_DEC_BASIC_INFO true (basicInfoOf 2 2 8 3 0), .JXL_DEC_SUCCESS]
      emptyCaller .optimal).state.components = 3 ∧
    (DecodeJpegXlOneShot setupOk
      [.JXL_DEC_BASIC_INFO true (basicInfoOf 2 2 8 3 0), .JXL_DEC_SUCCESS]
      emptyCaller .optimal).state.useFloats = false := by
  decide

theorem outBufferSize_eq (s : DecState) :
    outBufferSize s =
      (s.xsize * s.ysize * toSizeT s.components * (if s.hdrImage then 2 else 1)) % 2 ^ 64 := by
  unfold outBufferSize mulSz sizeMod
  generalize (if s.hdrImage = true then 2 else 1) = k
  exact (((Nat.mod_modEq _ _).trans
    ((Nat.mod_modEq (s.xsize * s.ysize) (2 ^ 64)).mul_right (toSizeT s.components))).mul_right k)

theorem toSizeT_of_nonneg (c : Int) (h : 0 ≤ c) : toSizeT c = c.toNat % 2 ^ 64 := by
  unfold toSizeT
  omega

theorem mul_mod_inner (a c k m : Nat) : (a * (c % m) * k) % m = (a * c * k) % m :=
  (((Nat.mod_modEq c m).mul_left a).mul_right k)

/-- C3, amended: when the statuses the loop processes are in protocol order
(exactly one basic-info status, then at least one buffer request, then
success) and `DecodeJpegXlOneShot` returns true, the length of the pixel
buffer is `xsize*ysize*components*bytesPerSample` as the code computes it, in
`size_t` arithmetic, with 2 bytes per sample when `useFloats` is true and 1
otherwise; that is the exact product whenever `components` is not negative
and the product is below 2^64. -/
theorem DecodeJpegXlOneShot_buffer_length (setup : DecSetup) (events : List DecEvent)
    (caller : DecOut) (pixelFormat : JxlDecodingPixelFormat) (out : DecState)
    (hord : wellOrdered 0 events = true)
    (hrun : DecodeJpegXlOneShot setup events caller pixelFormat = ⟨some true, out⟩) :
    out.pixels.length =
        (out.xsize * out.ysize * toSizeT out.components * (if out.useFloats then 2 else 1))
          % 2 ^ 64 ∧
      (0 ≤ out.components →
        out.xsize * out.ysize * out.components.toNat * (if out.useFloats then 2 else 1)
          < 2 ^ 64 →
        out.pixels.length =
          out.xsize * out.ysize * out.components.toNat * (if out.useFloats then 2 else 1)) := by
  have hloop : decodeLoop setup.allocLimit pixelFormat (loopEntry pixelFormat caller) events
      = ⟨some true, out⟩ := by
    unfold DecodeJpegXlOneShot at hrun
    simp only [] at hrun
    split_ifs at hrun <;> first | exact hrun | simp at hrun
  have h := decodeLoop_length setup.allocLimit pixelFormat events 0
    (loopEntry pixelFormat caller) hord
    ⟨fun _ => rfl, rfl, by simp⟩ (by rw [hloop])
  rw [hloop] at h
  simp only [] at h
  obtain ⟨hlen, hhdr⟩ := h
  rw [outBufferSize_eq, hhdr] at hlen
  refine ⟨hlen, fun hc hlt => ?_⟩
  rw [hlen, toSizeT_of_nonneg _ hc, mul_mod_inner]
  exact Nat.mod_eq_of_lt hlt

/-- C3, witness: the decode of a 2x2 8-bit RGBA image leaves 16 bytes. -/
theorem DecodeJpegXlOneShot_buffer_length_witness :
    wellOrdered 0 sampleEvents = true ∧
    (DecodeJpegXlOneShot setupOk sampleEvents emptyCaller .optimal).ret = some true ∧
    (DecodeJpegXlOneShot setupOk sampleEvents emptyCaller .optimal).state.pixels.length
      = 2 * 2 * 4 * 1 :=
  ⟨by decide, by decide,
    (DecodeJpegXlOneShot_buffer_length setupOk sampleEvents emptyCaller .optimal
      (DecodeJpegXlOneShot setupOk sampleEvents emptyCaller .optimal).state
      (by decide) (by decide)).2 (by decide) (by decide)⟩

/-! ## Draining the compressed output -/

theorem writeAt_length (v : List Nat) (offset : Nat) (bytes : List Nat)
    (h : offset + bytes.length ≤ v.length) : (writeAt v offset bytes).length = v.length := by
  unfold writeAt
  simp
  omega

theorem take_writeAt (v : List Nat) (offset : Nat) (bytes : List Nat)
    (h : offset + bytes.length ≤ v.length) :
    (writeAt v offset bytes).take (offset + bytes.length) = v.take offset ++ bytes := by
  unfold writeAt
  have h1 : (v.take offset ++ bytes).length = offset + bytes.length := by
    simp
    omega
  rw [← h1, List.take_left]

theorem take_resize (v : List Nat) (n m : Nat) (hm : m ≤ v.length) (hn : m ≤ n) :
    (resize v n).take m = v.take m := by
  unfold resize
  rw [List.take_append_of_le_length (by simp; omega), List.take_take]
  congr 1
  omega

theorem resize_of_le (v : List Nat) (n : Nat) (h : n ≤ v.length) : resize v n = v.take n := by
  unfold resize
  have : n - v.length = 0 := by omega
  simp [this]

theorem drainLoop_compressed (pulls : List PullResponse) :
    ∀ (compressed : List Nat) (offset avail_out : Nat) (tr : List EncCall) (b : Bool),
      offset + avail_out ≤ compressed.length →
      (drainLoop compressed offset avail_out tr pulls).ret = some b →
      (drainLoop compressed offset avail_out tr pulls).compressed =
        compressed.take offset ++ pulledBytes pulls := by
  induction pulls with
  | nil => intro compressed offset avail_out tr b _ hret; simp [drainLoop] at hret
  | cons p ps ih =>
    intro compressed offset avail_out tr b hinv hret
    unfold drainLoop at hret ⊢
    by_cases h : p.bytes.length ≤ avail_out
    · have hle : offset + p.bytes.length ≤ compressed.length := by omega
      have hlen := writeAt_length compressed offset p.bytes hle
      have htake := take_writeAt compressed offset p.bytes hle
      cases hs : p.status with
      | JXL_ENC_NEED_MORE_OUTPUT =>
        simp only [h, hs, if_true] at hret ⊢
        rw [ih _ _ _ _ b (by rw [resize_length]; omega) hret]
        rw [take_resize _ _ _ (by omega) (by omega), htake]
        simp [pulledBytes, hs]
      | JXL_ENC_SUCCESS =>
        simp only [h, hs, if_true]
        rw [resize_of_le _ _ (by omega), htake]
        simp [pulledBytes, hs]
      | JXL_ENC_ERROR =>
        simp only [h, hs, if_true]
        rw [resize_of_le _ _ (by omega), htake]
        simp [pulledBytes, hs]
    · simp [h] at hret

theorem noPull_snoc {tr : List EncCall} (h : NoPull tr) (c : EncCall)
    (hc : c.isProcessOutput = false) : NoPull (tr ++ [c]) := by
  intro d hd
  rcases List.mem_append.mp hd with hd | hd
  · exact h d hd
  · simp at hd
    rw [hd]
    exact hc

theorem noPull_iccStep {tr : List EncCall} (h : NoPull tr) (codec : EncCodec)
    (iccProfile : Option (List Nat)) : NoPull (iccStep codec tr iccProfile).2 := by
  unfold JxlWorker.iccStep
  rcases iccProfile with _ | icc
  · exact h
  · by_cases he : icc.isEmpty = true
    · simpa [he] using h
    · simpa [he] using noPull_snoc h (EncCall.JxlEncoderSetICCProfile icc) rfl

/-- A property holds of every result of `EncodeJxlOneshot` once it holds at
every failure exit, whose trace has no output pull, and after the output
loop. -/
theorem EncodeJxlOneshot_exits (R : EncResult → Prop) (lib : JxlLib) (codec : EncCodec)
    (pulls : List PullResponse) (pixels : List Nat) (xsize ysize : Nat)
    (compressed : List Nat) (colorspace : JxlPixelType)
    (compressionOption : JxlCompressionOption) (compressionDistance : CFloat)
    (effort decodingSpeed : Int)
    (hfail : ∀ tr, NoPull tr → R ⟨some false, tr, compressed⟩)
    (hdrain : ∀ tr, NoPull tr →
      R (drainLoop (resize compressed 64) 0 ((resize compressed 64).length - 0) tr pulls)) :
    R (EncodeJxlOneshot lib codec pulls pixels xsize ysize compressed colorspace
      compressionOption compressionDistance effort decodingSpeed) := by
  have h0 : NoPull [] := by intro c hc; simp at hc
  unfold EncodeJxlOneshot
  refine tryCall_inv NoPull R ?_ (hfail _) fun tr hT => ?_
  · exact noPull_snoc h0 _ rfl
  refine tryCall_inv NoPull R ?_ (hfail _) fun tr hT => ?_
  · exact noPull_snoc hT _ rfl
  refine tryCallIf_inv NoPull R hT ?_ (hfail _) fun tr hT => ?_
  · exact noPull_snoc hT _ rfl
  refine tryCall_inv NoPull R ?_ (hfail _) fun tr hT => ?_
  · exact noPull_snoc hT _ rfl
  refine tryCall_inv NoPull R ?_ (hfail _) fun tr hT => ?_
  · exact noPull_snoc (noPull_snoc hT EncCall.JxlEncoderFrameSettingsCreate rfl) _ rfl
  refine tryCall_inv NoPull R ?_ (hfail _) fun tr hT => ?_
  · exact noPull_snoc hT _ rfl
  refine tryCall_inv NoPull R ?_ (hfail _) fun tr hT => ?_
  · exact noPull_snoc hT _ rfl
  refine tryCall_inv NoPull R ?_ (hfail _) fun tr hT => ?_
  · exact noPull_snoc hT _ rfl
  refine tryCallIf_inv NoPull R hT ?_ (hfail _) fun tr hT => ?_
  · exact noPull_snoc hT _ rfl
  refine tryCall_inv NoPull R ?_ (hfail _) fun tr hT => ?_
  · exact noPull_snoc hT _ rfl
  refine tryCall_inv NoPull R ?_ (hfail _) fun tr hT => ?_
  · exact noPull_snoc hT _ rfl
  exact hdrain _ (noPull_snoc hT EncCall.JxlEncoderCloseInput rfl)

/-- The same rule for `EncodeJxlHDR`. -/
theorem EncodeJxlHDR_exits (R : EncResult → Prop) (lib : JxlLib) (codec : EncCodec)
    (pulls : List PullResponse) (pixels : List Nat) (xsize ysize : Nat)
    (compressed : List Nat) (numChannels containerBitsPerSample originalBitsPerSample : Int)
    (isFloat : Bool) (iccProfile : Option (List Nat))
    (transferFunction : JxlTransferFunctionType) (colorPrimaries : JxlColorPrimariesType)
    (compressionOption : JxlCompressionOption) (compressionDistance : CFloat)
    (effort decodingSpeed : Int)
    (hfail : ∀ tr, NoPull tr → R ⟨some false, tr, compressed⟩)
    (hdrain : ∀ tr, NoPull tr →
      R (drainLoop (resize compressed 64) 0 (resize compressed 64).length tr pulls)) :
    R (EncodeJxlHDR lib codec pulls pixels xsize ysize compressed numChannels
      containerBitsPerSample originalBitsPerSample isFloat iccProfile transferFunction
      colorPrimaries compressionOption compressionDistance effort decodingSpeed) := by
  have h0 : NoPull [] := by intro c hc; simp at hc
  unfold EncodeJxlHDR
  refine tryCall_inv NoPull R ?_ (hfail _) fun tr hT => ?_
  · exact noPull_snoc h0 _ rfl
  refine tryCall_inv NoPull R ?_ (hfail _) fun tr hT => ?_
  · exact noPull_snoc hT _ rfl
  refine tryCallIf_inv NoPull R hT ?_ (hfail _) fun tr hT => ?_
  · exact noPull_snoc hT _ rfl
  refine tryCallIf_inv NoPull R (noPull_iccStep hT _ _) ?_ (hfail _) fun tr hT => ?_
  · exact noPull_snoc (noPull_iccStep hT _ _) _ rfl
  refine tryCall_inv NoPull R ?_ (hfail _) fun tr hT => ?_
  · exact noPull_snoc (noPull_snoc hT EncCall.JxlEncoderFrameSettingsCreate rfl) _ rfl
  refine tryCall_inv NoPull R ?_ (hfail _) fun tr hT => ?_
  · exact noPull_snoc hT _ rfl
  refine tryCall_inv NoPull R ?_ (hfail _) fun tr hT => ?_
  · exact noPull_snoc hT _ rfl
  refine tryCall_inv NoPull R ?_ (hfail _) fun tr hT => ?_
  · exact noPull_snoc hT _ rfl
  refine tryCallIf_inv NoPull R hT ?_ (hfail _) fun tr hT => ?_
  · exact noPull_snoc hT _ rfl
  refine tryCallIf_inv NoPull R hT ?_ (hfail _) fun tr hT => ?_
  · exact noPull_snoc hT _ rfl
  by_cases hsz : pixels.length ≠ expectedSize xsize ysize numChannels containerBitsPerSample
  · simp only [if_pos hsz]
    exact hfail _ hT
  · simp only [if_neg hsz]
    refine tryCall_inv NoPull R ?_ (hfail _) fun tr hT => ?_
    · exact noPull_snoc hT _ rfl
    exact hdrain _ (noPull_snoc hT EncCall.JxlEncoderCloseInput rfl)

theorem drainLoop_from_start (compressed : List Nat) (tr : List EncCall)
    (pulls : List PullResponse) (b : Bool)
    (h : (drainLoop (resize compressed 64) 0 (resize compressed 64).length tr pulls).ret
      = some b) :
    (drainLoop (resize compressed 64) 0 (resize compressed 64).length tr pulls).compressed
      = pulledBytes pulls := by
  rw [drainLoop_compressed pulls _ 0 _ tr b (by omega) h]
  simp

/-- C5: in both encode pipelines, when the call returns success the
compressed buffer is exactly the bytes the codec stored across the output
pulls, in order (so its length is the number of bytes written, and bytes
stored before a doubling keep their offsets). -/
theorem encoders_success_output (lib : JxlLib) (codec : EncCodec)
    (pulls : List PullResponse) (pixels : List Nat) (xsize ysize : Nat)
    (compressed : List Nat) (colorspace : JxlPixelType)
    (numChannels containerBitsPerSample originalBitsPerSample : Int)
    (isFloat : Bool) (iccProfile : Option (List Nat))
    (transferFunction : JxlTransferFunctionType) (colorPrimaries : JxlColorPrimariesType)
    (compressionOption : JxlCompressionOption) (compressionDistance : CFloat)
    (effort decodingSpeed : Int) :
    ((EncodeJxlOneshot lib codec pulls pixels xsize ysize compressed colorspace
        compressionOption compressionDistance effort decodingSpeed).ret = some true →
      (EncodeJxlOneshot lib codec pulls pixels xsize ysize compressed colorspace
        compressionOption compressionDistance effort decodingSpeed).compressed
        = pulledBytes pulls) ∧
    ((EncodeJxlHDR lib codec pulls pixels xsize ysize compressed numChannels
        containerBitsPerSample originalBitsPerSample isFloat iccProfile transferFunction
        colorPrimaries compressionOption compressionDistance effort decodingSpeed).ret
        = some true →
      (EncodeJxlHDR lib codec pulls pixels xsize ysize compressed numChannels
        containerBitsPerSample originalBitsPerSample isFloat iccProfile transferFunction
        colorPrimaries compressionOption compressionDistance effort decodingSpeed).compressed
        = pulledBytes pulls) := by
  constructor
  · exact EncodeJxlOneshot_exits (SuccessYields (pulledBytes pulls)) lib codec pulls pixels
      xsize ysize compressed colorspace compressionOption compressionDistance effort
      decodingSpeed (fun tr _ h => by simp at h)
      (fun tr _ h => drainLoop_from_start compressed tr pulls true h)
  · exact EncodeJxlHDR_exits (SuccessYields (pulledBytes pulls)) lib codec pulls pixels
      xsize ysize compressed numChannels containerBitsPerSample originalBitsPerSample isFloat
      iccProfile transferFunction colorPrimaries compressionOption compressionDistance effort
      decodingSpeed (fun tr _ h => by simp at h)
      (fun tr _ h => drainLoop_from_start compressed tr pulls true h)

set_option maxRecDepth 100000 in
/-- C5, witness: two doublings, then success with 131 bytes in all. -/
theorem encoders_success_output_witness :
    (EncodeJxlOneshot sampleLib acceptAll samplePulls redPixels 2 2 [] .rgba .lossless
      0 7 0).compressed = List.replicate 64 7 ++ List.replicate 64 8 ++ [9, 9, 9] :=
  ((encoders_success_output sampleLib acceptAll samplePulls redPixels 2 2 [] .rgba 4 8 8 false
    none .TransferSRGB .PrimariesSRGB .lossless 0 7 0).1 rfl).trans rfl

theorem drainLoop_ret (pulls : List PullResponse) :
    ∀ (compressed : List Nat) (offset avail_out : Nat) (tr : List EncCall) (b : Bool),
      (drainLoop compressed offset avail_out tr pulls).ret = some b →
      terminalStatus pulls =
        some (if b then JxlEncoderStatus.JXL_ENC_SUCCESS else JxlEncoderStatus.JXL_ENC_ERROR) := by
  induction pulls with
  | nil => intro compressed offset avail_out tr b hret; simp [drainLoop] at hret
  | cons p ps ih =>
    intro compressed offset avail_out tr b hret
    unfold drainLoop at hret
    by_cases h : p.bytes.length ≤ avail_out
    · cases hs : p.status with
      | JXL_ENC_NEED_MORE_OUTPUT =>
        simp only [h, hs, if_true] at hret
        simpa [terminalStatus, hs] using ih _ _ _ _ b hret
      | JXL_ENC_SUCCESS =>
        simp only [h, hs, if_true] at hret
        simp at hret
        simp [terminalStatus, hs, ← hret]
      | JXL_ENC_ERROR =>
        simp only [h, hs, if_true] at hret
        simp at hret
        simp [terminalStatus, hs, hret]
    · simp [h] at hret

set_option maxRecDepth 100000 in
/-- C6, counterexample: in both pipelines, when the codec stores 64 bytes and
then reports an error, the call returns false and the caller's buffer holds
those 64 bytes. -/
theorem encoders_error_keeps_output :
    (EncodeJxlOneshot sampleLib acceptAll failingPulls redPixels 2 2 [] .rgba .lossless
      0 7 0).ret = some false ∧
    (EncodeJxlOneshot sampleLib acceptAll failingPulls redPixels 2 2 [] .rgba .lossless
      0 7 0).compressed = List.replicate 64 7 ∧
    (EncodeJxlHDR sampleLib acceptAll failingPulls redPixels 2 2 [] 4 8 8 false none
      .TransferSRGB .PrimariesSRGB .lossless 0 7 0).ret = some false ∧
    (EncodeJxlHDR sampleLib acceptAll failingPulls redPixels 2 2 [] 4 8 8 false none
      .TransferSRGB .PrimariesSRGB .lossless 0 7 0).compressed = List.replicate 64 7 :=
  ⟨rfl, rfl, rfl, rfl⟩

theorem errorYields_fail (pulls : List PullResponse) (compressed : List Nat)
    (tr : List EncCall) (h : NoPull tr) : ErrorYields pulls ⟨some false, tr, compressed⟩ := by
  rintro ⟨c, hc, hp⟩
  have := h c hc
  simp [hp] at this

theorem errorYields_drain (pulls : List PullResponse) (compressed : List Nat)
    (tr : List EncCall) :
    ErrorYields pulls
      (drainLoop (resize compressed 64) 0 (resize compressed 64).length tr pulls) := by
  intro _ b hret hterm
  have hb := drainLoop_ret pulls _ _ _ _ b hret
  cases b with
  | true => simp [hb] at hterm
  | false => exact ⟨rfl, drainLoop_from_start compressed tr pulls false hret⟩

/-- C6, amended: in both encode pipelines, when the output loop ran and ended
with a terminal status other than success, the call returns false and the
compressed buffer left to the caller is truncated to exactly the bytes the
codec stored up to then; it is not cleared. -/
theorem encoders_error_output (lib : JxlLib) (codec : EncCodec)
    (pulls : List PullResponse) (pixels : List Nat) (xsize ysize : Nat)
    (compressed : List Nat) (colorspace : JxlPixelType)
    (numChannels containerBitsPerSample originalBitsPerSample : Int)
    (isFloat : Bool) (iccProfile : Option (List Nat))
    (transferFunction : JxlTransferFunctionType) (colorPrimaries : JxlColorPrimariesType)
    (compressionOption : JxlCompressionOption) (compressionDistance : CFloat)
    (effort decodingSpeed : Int)
    (hterm : terminalStatus pulls ≠ some JxlEncoderStatus.JXL_ENC_SUCCESS) :
    ((∃ c ∈ (EncodeJxlOneshot lib codec pulls pixels xsize ysize compressed colorspace
        compressionOption compressionDistance effort decodingSpeed).trace,
          c.isProcessOutput = true) →
      ∀ b, (EncodeJxlOneshot lib codec pulls pixels xsize ysize compressed colorspace
        compressionOption compressionDistance effort decodingSpeed).ret = some b →
      b = false ∧
      (EncodeJxlOneshot lib codec pulls pixels xsize ysize compressed colorspace
        compressionOption compressionDistance effort decodingSpeed).compressed
        = pulledBytes pulls) ∧
    ((∃ c ∈ (EncodeJxlHDR lib codec pulls pixels xsize ysize compressed numChannels
        containerBitsPerSample originalBitsPerSample isFloat iccProfile transferFunction
        colorPrimaries compressionOption compressionDistance effort decodingSpeed).trace,
          c.isProcessOutput = true) →
      ∀ b, (EncodeJxlHDR lib codec pulls pixels xsize ysize compressed numChannels
        containerBitsPerSample originalBitsPerSample isFloat iccProfile transferFunction
        colorPrimaries compressionOption compressionDistance effort decodingSpeed).ret
        = some b →
      b = false ∧
      (EncodeJxlHDR lib codec pulls pixels xsize ysize compressed numChannels
        containerBitsPerSample originalBitsPerSample isFloat iccProfile transferFunction
        colorPrimaries compressionOption compressionDistance effort decodingSpeed).compressed
        = pulledBytes pulls) := by
  constructor
  · intro hp b hb
    exact EncodeJxlOneshot_exits (ErrorYields pulls) lib codec pulls pixels
      xsize ysize compressed colorspace compressionOption compressionDistance effort
      decodingSpeed (fun tr hT => errorYields_fail pulls compressed tr hT)
      (fun tr _ => errorYields_drain pulls compressed tr) hp b hb hterm
  · intro hp b hb
    exact EncodeJxlHDR_exits (ErrorYields pulls) lib codec pulls pixels
      xsize ysize compressed numChannels containerBitsPerSample originalBitsPerSample isFloat
      iccProfile transferFunction colorPrimaries compressionOption compressionDistance effort
      decodingSpeed (fun tr hT => errorYields_fail pulls compressed tr hT)
      (fun tr _ => errorYields_drain pulls compressed tr) hp b hb hterm

set_option maxRecDepth 100000 in
/-- C6, witness: 64 bytes stored, then an error. -/
theorem encoders_error_output_witness :
    (EncodeJxlHDR sampleLib acceptAll failingPulls redPixels 2 2 [] 4 8 8 false none
      .TransferSRGB .PrimariesSRGB .lossless 0 7 0).compressed = List.replicate 64 7 :=
  (((encoders_error_output sampleLib acceptAll failingPulls redPixels 2 2 [] .rgba 4 8 8 false
    none .TransferSRGB .PrimariesSRGB .lossless 0 7 0 (by decide)).2
      ⟨EncCall.JxlEncoderProcessOutput 64, by decide, rfl⟩ false rfl).2).trans rfl

/-! ## The colour encoding of the HDR encoder -/

theorem colorEncodingCalls_append (a b : List EncCall) :
    colorEncodingCalls (a ++ b) = colorEncodingCalls a ++ colorEncodingCalls b := by
  induction a with
  | nil => rfl
  | cons c t ih => cases c <;> simp [colorEncodingCalls, ih]

theorem colorCallsAre_snoc {cs : List JxlColorEncoding} {tr : List EncCall}
    (h : ColorCallsAre cs tr) (c : EncCall) (hc : c.isSetColorEncoding = false) :
    ColorCallsAre cs (tr ++ [c]) := by
  unfold ColorCallsAre at h ⊢
  rw [colorEncodingCalls_append, h]
  cases c <;> simp [colorEncodingCalls, EncCall.isSetColorEncoding] at hc ⊢

theorem colorCallsAre_color {tr : List EncCall} (h : ColorCallsAre [] tr)
    (color : JxlColorEncoding) :
    ColorCallsAre [color] (tr ++ [EncCall.JxlEncoderSetColorEncoding color]) := by
  unfold ColorCallsAre at h ⊢
  rw [colorEncodingCalls_append, h]
  rfl

theorem colorCallsAre_iccStep {cs : List JxlColorEncoding} {tr : List EncCall}
    (h : ColorCallsAre cs tr) (codec : EncCodec) (iccProfile : Option (List Nat)) :
    ColorCallsAre cs (iccStep codec tr iccProfile).2 := by
  unfold iccStep
  rcases iccProfile with _ | icc
  · exact h
  · by_cases he : icc.isEmpty = true
    · simpa [he] using h
    · simpa [he] using colorCallsAre_snoc h (EncCall.JxlEncoderSetICCProfile icc) rfl

theorem colorCallsAre_drain {cs : List JxlColorEncoding} {tr : List EncCall}
    (h : ColorCallsAre cs tr) (compressed : List Nat) (offset avail_out : Nat)
    (pulls : List PullResponse) :
    ColorCallsAre cs (drainLoop compressed offset avail_out tr pulls).trace := by
  obtain ⟨l, hl, hall⟩ := drainLoop_trace pulls compressed offset avail_out tr
  unfold ColorCallsAre at h ⊢
  rw [hl, colorEncodingCalls_append, h]
  have : colorEncodingCalls l = [] := by
    clear hl
    induction l with
    | nil => rfl
    | cons c t ih =>
      have hc := hall c (List.mem_cons_self c t)
      cases c <;> simp [EncCall.isProcessOutput] at hc
      simp only [colorEncodingCalls]
      exact ih (fun d hd => hall d (List.mem_cons_of_mem _ hd))
  rw [this]
  simp

theorem tryCallIf_true (codec : EncCodec) (tr : List EncCall) (c : EncCall)
    (compressed : List Nat) (k : List EncCall → EncResult) :
    tryCallIf true codec tr c compressed k = tryCall codec tr c compressed k := rfl

theorem tryCallIf_false (codec : EncCodec) (tr : List EncCall) (c : EncCall)
    (compressed : List Nat) (k : List EncCall → EncResult) :
    tryCallIf false codec tr c compressed k = k tr := rfl

theorem iccStep_accepted (codec : EncCodec) (tr : List EncCall) (icc : List Nat)
    (hne : icc ≠ []) (hacc : codec (tr ++ [EncCall.JxlEncoderSetICCProfile icc]) = true) :
    iccStep codec tr (some icc) = (true, tr ++ [EncCall.JxlEncoderSetICCProfile icc]) := by
  unfold iccStep
  cases icc with
  | nil => exact absurd rfl hne
  | cons a t => simp [hacc]

/-- C7, counterexample: with a supplied three-byte ICC profile that the codec
rejects, `EncodeJxlHDR` hands the codec the parametric PQ / BT.2020 encoding. -/
theorem EncodeJxlHDR_icc_rejected_falls_back :
    colorEncodingCalls
      (EncodeJxlHDR sampleLib rejectICC [⟨.JXL_ENC_SUCCESS, [255, 10]⟩] [1, 2, 3] 1 1 [] 3 8 8
        false (some [73, 67, 67]) .TransferPQ .PrimariesBT2020 .lossless 0 7 0).trace =
      [{ color_space := .JXL_COLOR_SPACE_RGB, white_point := .JXL_WHITE_POINT_D65,
         primaries := .JXL_PRIMARIES_2100, transfer_function := .JXL_TRANSFER_FUNCTION_PQ,
         rendering_intent := .JXL_RENDERING_INTENT_PERCEPTUAL }] := by
  decide

/-- C7, amended: for every call of `EncodeJxlHDR` with a supplied non-empty
ICC profile that the codec accepts (the ICC embedding call returns success),
`JxlEncoderSetColorEncoding` is never called. -/
theorem EncodeJxlHDR_icc_accepted_no_parametric (lib : JxlLib) (codec : EncCodec)
    (pulls : List PullResponse) (pixels : List Nat) (xsize ysize : Nat)
    (compressed : List Nat) (numChannels containerBitsPerSample originalBitsPerSample : Int)
    (isFloat : Bool) (icc : List Nat)
    (transferFunction : JxlTransferFunctionType) (colorPrimaries : JxlColorPrimariesType)
    (compressionOption : JxlCompressionOption) (compressionDistance : CFloat)
    (effort decodingSpeed : Int)
    (hne : icc ≠ [])
    (hacc : ∀ tr, codec (tr ++ [EncCall.JxlEncoderSetICCProfile icc]) = true) :
    colorEncodingCalls
      (EncodeJxlHDR lib codec pulls pixels xsize ysize compressed numChannels
        containerBitsPerSample originalBitsPerSample isFloat (some icc) transferFunction
        colorPrimaries compressionOption compressionDistance effort decodingSpeed).trace
      = [] := by
  have h0 : ColorCallsAre [] [] := rfl
  unfold EncodeJxlHDR
  refine tryCall_inv (ColorCallsAre []) (fun r => ColorCallsAre [] r.trace) ?_ id
    fun tr hT => ?_
  · exact colorCallsAre_snoc h0 _ rfl
  refine tryCall_inv (ColorCallsAre []) (fun r => ColorCallsAre [] r.trace) ?_ id
    fun tr hT => ?_
  · exact colorCallsAre_snoc hT _ rfl
  refine tryCallIf_inv (ColorCallsAre []) (fun r => ColorCallsAre [] r.trace) hT ?_ id
    fun tr hT => ?_
  · exact colorCallsAre_snoc hT _ rfl
  rw [iccStep_accepted codec tr icc hne (hacc tr)]
  simp only [Bool.not_true, tryCallIf_false]
  have hT := colorCallsAre_snoc (colorCallsAre_snoc hT (EncCall.JxlEncoderSetICCProfile icc) rfl)
    EncCall.JxlEncoderFrameSettingsCreate rfl
  refine tryCall_inv (ColorCallsAre []) (fun r => ColorCallsAre [] r.trace) ?_ id
    fun tr hT => ?_
  · exact colorCallsAre_snoc hT _ rfl
  refine tryCall_inv (ColorCallsAre []) (fun r => ColorCallsAre [] r.trace) ?_ id
    fun tr hT => ?_
  · exact colorCallsAre_snoc hT _ rfl
  refine tryCall_inv (ColorCallsAre []) (fun r => ColorCallsAre [] r.trace) ?_ id
    fun tr hT => ?_
  · exact colorCallsAre_snoc hT _ rfl
  refine tryCall_inv (ColorCallsAre []) (fun r => ColorCallsAre [] r.trace) ?_ id
    fun tr hT => ?_
  · exact colorCallsAre_snoc hT _ rfl
  refine tryCallIf_inv (ColorCallsAre []) (fun r => ColorCallsAre [] r.trace) hT ?_ id
    fun tr hT => ?_
  · exact colorCallsAre_snoc hT _ rfl
  refine tryCallIf_inv (ColorCallsAre []) (fun r => ColorCallsAre [] r.trace) hT ?_ id
    fun tr hT => ?_
  · exact colorCallsAre_snoc hT _ rfl
  by_cases hsz : pixels.length ≠ expectedSize xsize ysize numChannels containerBitsPerSample
  · simp only [if_pos hsz]
    exact hT
  · simp only [if_neg hsz]
    refine tryCall_inv (ColorCallsAre []) (fun r => ColorCallsAre [] r.trace) ?_ id
      fun tr hT => ?_
    · exact colorCallsAre_snoc hT _ rfl
    exact colorCallsAre_drain (colorCallsAre_snoc hT EncCall.JxlEncoderCloseInput rfl) _ _ _ _

/-- C7, witness: an accepted three-byte ICC profile. -/
theorem EncodeJxlHDR_icc_accepted_no_parametric_witness :
    colorEncodingCalls
      (EncodeJxlHDR sampleLib acceptAll [⟨.JXL_ENC_SUCCESS, [255, 10]⟩] [1, 2, 3] 1 1 [] 3 8 8
        false (some [73, 67, 67]) .TransferPQ .PrimariesBT2020 .lossless 0 7 0).trace = [] :=
  EncodeJxlHDR_icc_accepted_no_parametric sampleLib acceptAll [⟨.JXL_ENC_SUCCESS, [255, 10]⟩]
    [1, 2, 3] 1 1 [] 3 8 8 false [73, 67, 67] .TransferPQ .PrimariesBT2020 .lossless 0 7 0
    (by decide) (fun _ => rfl)

theorem parametricColorEncoding_spec (lib : JxlLib) (numChannels : Int)
    (transferFunction : JxlTransferFunctionType) (colorPrimaries : JxlColorPrimariesType) :
    parametricColorEncoding lib numChannels transferFunction colorPrimaries =
      if transferFunction = .TransferSRGB ∧ colorPrimaries = .PrimariesSRGB then
        lib.JxlColorEncodingSetToSRGB (decide (numChannels < 3))
      else
        { color_space := .JXL_COLOR_SPACE_RGB
          white_point := .JXL_WHITE_POINT_D65
          primaries := specPrimaries colorPrimaries
          transfer_function := specTransferFunction transferFunction
          rendering_intent := .JXL_RENDERING_INTENT_PERCEPTUAL } := by
  cases transferFunction <;> cases colorPrimaries <;>
    simp [parametricColorEncoding, specPrimaries, specTransferFunction]

/-- C8: for every transfer-function tag and primaries tag, when `EncodeJxlHDR`
is called with an absent or empty ICC profile and the codec accepts the
configuration calls made before the colour encoding is set, exactly one
colour encoding is handed to the codec: the standard-sRGB shorthand when both
tags are sRGB, otherwise the descriptor with colour space RGB, white point
D65, rendering intent perceptual, primaries sRGB / P3 / 2100 for the tags
sRGB / DisplayP3 / BT2020 and transfer function sRGB / linear / PQ / HLG for
the tags of the same names. -/
theorem EncodeJxlHDR_parametric_color (lib : JxlLib) (codec : EncCodec)
    (pulls : List PullResponse) (pixels : List Nat) (xsize ysize : Nat)
    (compressed : List Nat) (numChannels containerBitsPerSample originalBitsPerSample : Int)
    (isFloat : Bool) (iccProfile : Option (List Nat))
    (transferFunction : JxlTransferFunctionType) (colorPrimaries : JxlColorPrimariesType)
    (compressionOption : JxlCompressionOption) (compressionDistance : CFloat)
    (effort decodingSpeed : Int)
    (hicc : iccProfile = none ∨ iccProfile = some [])
    (hpre : ∀ tr c, c.beforeColor = true → codec (tr ++ [c]) = true) :
    colorEncodingCalls
      (EncodeJxlHDR lib codec pulls pixels xsize ysize compressed numChannels
        containerBitsPerSample originalBitsPerSample isFloat iccProfile transferFunction
        colorPrimaries compressionOption compressionDistance effort decodingSpeed).trace
      = [if transferFunction = .TransferSRGB ∧ colorPrimaries = .PrimariesSRGB then
          lib.JxlColorEncodingSetToSRGB (decide (numChannels < 3))
        else
          { color_space := .JXL_COLOR_SPACE_RGB
            white_point := .JXL_WHITE_POINT_D65
            primaries := specPrimaries colorPrimaries
            transfer_function := specTransferFunction transferFunction
            rendering_intent := .JXL_RENDERING_INTENT_PERCEPTUAL }] := by
  rw [← parametricColorEncoding_spec]
  have h0 : ColorCallsAre [] [] := rfl
  unfold EncodeJxlHDR
  refine tryCall_accepted_inv (ColorCallsAre [])
    (fun r => ColorCallsAre
      [parametricColorEncoding lib numChannels transferFunction colorPrimaries] r.trace)
    (hpre _ _ ?_) ?_ fun tr hT => ?_
  · rfl
  · exact colorCallsAre_snoc h0 _ rfl
  refine tryCall_accepted_inv (ColorCallsAre [])
    (fun r => ColorCallsAre
      [parametricColorEncoding lib numChannels transferFunction colorPrimaries] r.trace)
    (hpre _ _ ?_) ?_ fun tr hT => ?_
  · rfl
  · exact colorCallsAre_snoc hT _ rfl
  refine tryCallIf_accepted_inv (ColorCallsAre [])
    (fun r => ColorCallsAre
      [parametricColorEncoding lib numChannels transferFunction colorPrimaries] r.trace)
    (hpre _ _ ?_) hT ?_ fun tr hT => ?_
  · rfl
  · exact colorCallsAre_snoc hT _ rfl
  have hstep : iccStep codec tr iccProfile = (false, tr) := by
    rcases hicc with rfl | rfl <;> rfl
  rw [hstep]
  simp only [Bool.not_false, tryCallIf_true]
  refine tryCall_inv (ColorCallsAre [parametricColorEncoding lib numChannels transferFunction colorPrimaries])
    (fun r => ColorCallsAre
      [parametricColorEncoding lib numChannels transferFunction colorPrimaries] r.trace)
    ?_ id fun tr hT => ?_
  · exact colorCallsAre_color hT _
  have hT := colorCallsAre_snoc hT EncCall.JxlEncoderFrameSettingsCreate rfl
  refine tryCall_inv (ColorCallsAre [parametricColorEncoding lib numChannels transferFunction colorPrimaries])
    (fun r => ColorCallsAre
      [parametricColorEncoding lib numChannels transferFunction colorPrimaries] r.trace)
    ?_ id fun tr hT => ?_
  · exact colorCallsAre_snoc hT _ rfl
  refine tryCall_inv (ColorCallsAre [parametricColorEncoding lib numChannels transferFunction colorPrimaries])
    (fun r => ColorCallsAre
      [parametricColorEncoding lib numChannels transferFunction colorPrimaries] r.trace)
    ?_ id fun tr hT => ?_
  · exact colorCallsAre_snoc hT _ rfl
  refine tryCall_inv (ColorCallsAre [parametricColorEncoding lib numChannels transferFunction colorPrimaries])
    (fun r => ColorCallsAre
      [parametricColorEncoding lib numChannels transferFunction colorPrimaries] r.trace)
    ?_ id fun tr hT => ?_
  · exact colorCallsAre_snoc hT _ rfl
  refine tryCall_inv (ColorCallsAre [parametricColorEncoding lib numChannels transferFunction colorPrimaries])
    (fun r => ColorCallsAre
      [parametricColorEncoding lib numChannels transferFunction colorPrimaries] r.trace)
    ?_ id fun tr hT => ?_
  · exact colorCallsAre_snoc hT _ rfl
  refine tryCallIf_inv (ColorCallsAre [parametricColorEncoding lib numChannels transferFunction colorPrimaries])
    (fun r => ColorCallsAre
      [parametricColorEncoding lib numChannels transferFunction colorPrimaries] r.trace)
    hT ?_ id fun tr hT => ?_
  · exact colorCallsAre_snoc hT _ rfl
  refine tryCallIf_inv (ColorCallsAre [parametricColorEncoding lib numChannels transferFunction colorPrimaries])
    (fun r => ColorCallsAre
      [parametricColorEncoding lib numChannels transferFunction colorPrimaries] r.trace)
    hT ?_ id fun tr hT => ?_
  · exact colorCallsAre_snoc hT _ rfl
  by_cases hsz : pixels.length ≠ expectedSize xsize ysize numChannels containerBitsPerSample
  · simp only [if_pos hsz]
    exact hT
  · simp only [if_neg hsz]
    refine tryCall_inv (ColorCallsAre [parametricColorEncoding lib numChannels transferFunction colorPrimaries])
      (fun r => ColorCallsAre
      [parametricColorEncoding lib numChannels transferFunction colorPrimaries] r.trace)
      ?_ id fun tr hT => ?_
    · exact colorCallsAre_snoc hT _ rfl
    exact colorCallsAre_drain (colorCallsAre_snoc hT EncCall.JxlEncoderCloseInput rfl) _ _ _ _

/-- C8, witness: PQ with BT.2020 primaries and no ICC profile. -/
theorem EncodeJxlHDR_parametric_color_witness :
    colorEncodingCalls
      (EncodeJxlHDR sampleLib acceptAll [⟨.JXL_ENC_SUCCESS, [255, 10]⟩] [1, 2, 3] 1 1 [] 3 8 8
        false none .TransferPQ .PrimariesBT2020 .lossless 0 7 0).trace =
      [{ color_space := .JXL_COLOR_SPACE_RGB, white_point := .JXL_WHITE_POINT_D65,
         primaries := .JXL_PRIMARIES_2100, transfer_function := .JXL_TRANSFER_FUNCTION_PQ,
         rendering_intent := .JXL_RENDERING_INTENT_PERCEPTUAL }] :=
  EncodeJxlHDR_parametric_color sampleLib acceptAll [⟨.JXL_ENC_SUCCESS, [255, 10]⟩]
    [1, 2, 3] 1 1 [] 3 8 8 false none .TransferPQ .PrimariesBT2020 .lossless 0 7 0
    (Or.inl rfl) (fun _ _ _ => rfl)

/-! ## Pixel format resolution and component count of the decoder -/

theorem decodeLoop_keeps_format (allocLimit : Nat) (pixelFormat : JxlDecodingPixelFormat)
    (es : List DecEvent) :
    ∀ s : DecState, noBasicInfo es = true →
      (decodeLoop allocLimit pixelFormat s es).state.components = s.components ∧
      (decodeLoop allocLimit pixelFormat s es).state.useFloats = s.useFloats ∧
      (decodeLoop allocLimit pixelFormat s es).state.format = s.format := by
  induction es with
  | nil => intro s _; exact ⟨rfl, rfl, rfl⟩
  | cons e es ih =>
    intro s hes
    cases e with
    | JXL_DEC_ERROR => exact ⟨rfl, rfl, rfl⟩
    | JXL_DEC_NEED_MORE_INPUT => exact ⟨rfl, rfl, rfl⟩
    | other code => exact ⟨rfl, rfl, rfl⟩
    | JXL_DEC_SUCCESS => exact ⟨rfl, rfl, rfl⟩
    | JXL_DEC_BASIC_INFO ok info => simp [noBasicInfo] at hes
    | JXL_DEC_FULL_IMAGE =>
      simp only [noBasicInfo] at hes
      simp only [decodeLoop]
      exact ih s hes
    | JXL_DEC_COLOR_ENCODING sizeOk iccSize getOk icc =>
      simp only [noBasicInfo] at hes
      simp only [decodeLoop]
      split_ifs <;> first | exact ih _ hes | exact ⟨rfl, rfl, rfl⟩
    | JXL_DEC_NEED_IMAGE_OUT_BUFFER sizeOk n setOk =>
      simp only [noBasicInfo] at hes
      simp only [decodeLoop]
      split_ifs <;> first | exact ih _ hes | exact ⟨rfl, rfl, rfl⟩

theorem toInt32_of_lt (n : Nat) (h : n < 2 ^ 31) : toInt32 n = (n : Int) := by
  unfold toInt32
  have h1 : n % 2 ^ 32 = n := Nat.mod_eq_of_lt (by omega)
  rw [h1, if_pos h]

theorem decodeLoop_keeps_size (allocLimit : Nat) (pixelFormat : JxlDecodingPixelFormat)
    (es : List DecEvent) :
    ∀ s : DecState, noBasicInfo es = true →
      (decodeLoop allocLimit pixelFormat s es).state.xsize = s.xsize ∧
      (decodeLoop allocLimit pixelFormat s es).state.ysize = s.ysize := by
  induction es with
  | nil => intro s _; exact ⟨rfl, rfl⟩
  | cons e es ih =>
    intro s hes
    cases e with
    | JXL_DEC_ERROR => exact ⟨rfl, rfl⟩
    | JXL_DEC_NEED_MORE_INPUT => exact ⟨rfl, rfl⟩
    | other code => exact ⟨rfl, rfl⟩
    | JXL_DEC_SUCCESS => exact ⟨rfl, rfl⟩
    | JXL_DEC_BASIC_INFO ok info => simp [noBasicInfo] at hes
    | JXL_DEC_FULL_IMAGE =>
      simp only [noBasicInfo] at hes
      simp only [decodeLoop]
      exact ih s hes
    | JXL_DEC_COLOR_ENCODING sizeOk iccSize getOk icc =>
      simp only [noBasicInfo] at hes
      simp only [decodeLoop]
      split_ifs <;> first | exact ih _ hes | exact ⟨rfl, rfl⟩
    | JXL_DEC_NEED_IMAGE_OUT_BUFFER sizeOk n setOk =>
      simp only [noBasicInfo] at hes
      simp only [decodeLoop]
      split_ifs <;> first | exact ih _ hes | exact ⟨rfl, rfl⟩

theorem DecodeJpegXlOneShot_after_basic_info (setup : DecSetup) (info : JxlBasicInfo)
    (es : List DecEvent) (caller : DecOut) (pixelFormat : JxlDecodingPixelFormat)
    (hsetup : setup.callsOk = true) :
    DecodeJpegXlOneShot setup (.JXL_DEC_BASIC_INFO true info :: es) caller pixelFormat
      = decodeLoop setup.allocLimit pixelFormat
          (onBasicInfo pixelFormat (loopEntry pixelFormat caller) info) es := by
  simp only [DecSetup.callsOk, Bool.and_eq_true] at hsetup
  obtain ⟨⟨h1, h2⟩, h3⟩ := hsetup
  simp [DecodeJpegXlOneShot, h1, h2, h3, decodeLoop]

/-- C9, counterexample: a basic info that reports the bit depth 2^31 is read
into the `int` `bitDepth` as a negative number, so with the `optimal`
preference the output stays 8-bit and `useFloats` stays false. -/
theorem DecodeJpegXlOneShot_bit_depth_wraps :
    8 < (basicInfoOf 2 2 2147483648 3 0).bits_per_sample ∧
    (DecodeJpegXlOneShot setupOk
      [.JXL_DEC_BASIC_INFO true (basicInfoOf 2 2 2147483648 3 0), .JXL_DEC_SUCCESS]
      emptyCaller .optimal).state.format.data_type = .JXL_TYPE_UINT8 ∧
    (DecodeJpegXlOneShot setupOk
      [.JXL_DEC_BASIC_INFO true (basicInfoOf 2 2 2147483648 3 0), .JXL_DEC_SUCCESS]
      emptyCaller .optimal).state.useFloats = false := by
  decide

/-- C9, amended: when the set-up calls succeed and the codec reports its
basic info once, with a source bit depth `b` below 2^31 (the range in which
the reported value is the `int` the code compares with 8), the decode output
sample type is 16-bit integer and `useFloats` is true exactly when the
preference is `r16`, or is `optimal` with `b > 8`; in every other case the
sample type is 8-bit integer and `useFloats` is false. -/
theorem DecodeJpegXlOneShot_pixel_format (setup : DecSetup) (info : JxlBasicInfo)
    (es : List DecEvent) (caller : DecOut) (pixelFormat : JxlDecodingPixelFormat)
    (hsetup : setup.callsOk = true)
    (hb : info.bits_per_sample < 2 ^ 31) (hes : noBasicInfo es = true) :
    ((pixelFormat = .r16 ∨ (pixelFormat = .optimal ∧ 8 < info.bits_per_sample)) →
      (DecodeJpegXlOneShot setup (.JXL_DEC_BASIC_INFO true info :: es) caller
          pixelFormat).state.format.data_type = .JXL_TYPE_UINT16 ∧
      (DecodeJpegXlOneShot setup (.JXL_DEC_BASIC_INFO true info :: es) caller
          pixelFormat).state.useFloats = true) ∧
    (¬ (pixelFormat = .r16 ∨ (pixelFormat = .optimal ∧ 8 < info.bits_per_sample)) →
      (DecodeJpegXlOneShot setup (.JXL_DEC_BASIC_INFO true info :: es) caller
          pixelFormat).state.format.data_type = .JXL_TYPE_UINT8 ∧
      (DecodeJpegXlOneShot setup (.JXL_DEC_BASIC_INFO true info :: es) caller
          pixelFormat).state.useFloats = false) := by
  obtain ⟨-, hu, hf⟩ := decodeLoop_keeps_format setup.allocLimit pixelFormat es
    (onBasicInfo pixelFormat (loopEntry pixelFormat caller) info) hes
  rw [DecodeJpegXlOneShot_after_basic_info setup info es caller pixelFormat hsetup, hu, hf]
  unfold onBasicInfo
  simp only [toInt32_of_lt _ hb]
  cases pixelFormat
  · by_cases h8 : 8 < info.bits_per_sample <;> simp [loopEntry, initialFormat, h8]
  · simp [loopEntry, initialFormat]
  · simp [loopEntry, initialFormat]

/-- C9, witness: a 16-bit source decoded with the `optimal` preference. -/
theorem DecodeJpegXlOneShot_pixel_format_witness :
    (DecodeJpegXlOneShot setupOk
      [.JXL_DEC_BASIC_INFO true (basicInfoOf 2 2 16 3 0), .JXL_DEC_SUCCESS] emptyCaller
      .optimal).state.format.data_type = .JXL_TYPE_UINT16 ∧
    (DecodeJpegXlOneShot setupOk
      [.JXL_DEC_BASIC_INFO true (basicInfoOf 2 2 16 3 0), .JXL_DEC_SUCCESS] emptyCaller
      .optimal).state.useFloats = true :=
  (DecodeJpegXlOneShot_pixel_format setupOk (basicInfoOf 2 2 16 3 0) [.JXL_DEC_SUCCESS]
    emptyCaller .optimal rfl (by decide) rfl).1 (Or.inr ⟨rfl, by decide⟩)

/-- C10, counterexample: a grayscale source without extra channels is decoded
with a component count of 1, into a buffer of one channel per pixel. -/
theorem DecodeJpegXlOneShot_gray_one_component :
    (DecodeJpegXlOneShot setupOk grayEvents emptyCaller .optimal).ret = some true ∧
    (DecodeJpegXlOneShot setupOk grayEvents emptyCaller .optimal).state.components = 1 ∧
    (DecodeJpegXlOneShot setupOk grayEvents emptyCaller .optimal).state.format.num_channels
      = 1 ∧
    (DecodeJpegXlOneShot setupOk grayEvents emptyCaller .optimal).state.pixels.length
      = 2 * 2 * 1 := by
  decide

/-- C10, amended: when the set-up calls succeed and the codec reports its
basic info once, the component count returned by `DecodeJpegXlOneShot` is 4
if the basic info has at least one extra channel and the source's number of
colour channels otherwise; the pixel format with which the output buffer is
sized and handed to the codec has that many channels; both are 3 or both are
4 whenever the source has three colour channels or an extra channel; and
after a successful decode in protocol order the output buffer holds
`xsize*ysize*components` samples of 2 bytes when `useFloats` is true and of
1 byte otherwise, in `size_t` arithmetic. -/
theorem DecodeJpegXlOneShot_components (setup : DecSetup) (info : JxlBasicInfo)
    (es : List DecEvent) (caller : DecOut) (pixelFormat : JxlDecodingPixelFormat)
    (hsetup : setup.callsOk = true) (hes : noBasicInfo es = true) :
    (DecodeJpegXlOneShot setup (.JXL_DEC_BASIC_INFO true info :: es) caller
        pixelFormat).state.components
      = (if 0 < info.num_extra_channels then 4 else toInt32 info.num_color_channels) ∧
    (DecodeJpegXlOneShot setup (.JXL_DEC_BASIC_INFO true info :: es) caller
        pixelFormat).state.format.num_channels
      = toU32 (DecodeJpegXlOneShot setup (.JXL_DEC_BASIC_INFO true info :: es) caller
          pixelFormat).state.components ∧
    (0 < info.num_extra_channels ∨ info.num_color_channels = 3 →
      ((DecodeJpegXlOneShot setup (.JXL_DEC_BASIC_INFO true info :: es) caller
          pixelFormat).state.components = 3 ∧
        (DecodeJpegXlOneShot setup (.JXL_DEC_BASIC_INFO true info :: es) caller
          pixelFormat).state.format.num_channels = 3) ∨
      ((DecodeJpegXlOneShot setup (.JXL_DEC_BASIC_INFO true info :: es) caller
          pixelFormat).state.components = 4 ∧
        (DecodeJpegXlOneShot setup (.JXL_DEC_BASIC_INFO true info :: es) caller
          pixelFormat).state.format.num_channels = 4)) ∧
    (wellOrdered 0 (.JXL_DEC_BASIC_INFO true info :: es) = true →
      (DecodeJpegXlOneShot setup (.JXL_DEC_BASIC_INFO true info :: es) caller
          pixelFormat).ret = some true →
      (DecodeJpegXlOneShot setup (.JXL_DEC_BASIC_INFO true info :: es) caller
          pixelFormat).state.pixels.length
        = (info.xsize * info.ysize *
            toSizeT (DecodeJpegXlOneShot setup (.JXL_DEC_BASIC_INFO true info :: es) caller
              pixelFormat).state.components *
            (if (DecodeJpegXlOneShot setup (.JXL_DEC_BASIC_INFO true info :: es) caller
              pixelFormat).state.useFloats then 2 else 1)) % 2 ^ 64) := by
  obtain ⟨hc, -, hf⟩ := decodeLoop_keeps_format setup.allocLimit pixelFormat es
    (onBasicInfo pixelFormat (loopEntry pixelFormat caller) info) hes
  obtain ⟨hx, hy⟩ := decodeLoop_keeps_size setup.allocLimit pixelFormat es
    (onBasicInfo pixelFormat (loopEntry pixelFormat caller) info) hes
  have hcomp : (onBasicInfo pixelFormat (loopEntry pixelFormat caller) info).components
      = (if 0 < info.num_extra_channels then 4 else toInt32 info.num_color_channels) := by
    unfold onBasicInfo
    simp only []
    split_ifs <;> rfl
  have hfmt : (onBasicInfo pixelFormat (loopEntry pixelFormat caller) info).format.num_channels
      = toU32 (if 0 < info.num_extra_channels then 4
          else toInt32 info.num_color_channels) := by
    unfold onBasicInfo
    simp only []
    split_ifs <;> rfl
  have hxs : (onBasicInfo pixelFormat (loopEntry pixelFormat caller) info).xsize
      = info.xsize := by
    unfold onBasicInfo
    simp only []
    split_ifs <;> rfl
  have hys : (onBasicInfo pixelFormat (loopEntry pixelFormat caller) info).ysize
      = info.ysize := by
    unfold onBasicInfo
    simp only []
    split_ifs <;> rfl
  have hinv : DecInv 1 (onBasicInfo pixelFormat (loopEntry pixelFormat caller) info) := by
    refine ⟨by simp, ?_, by simp⟩
    unfold onBasicInfo
    simp only []
    split_ifs <;> simp [loopEntry]
  rw [DecodeJpegXlOneShot_after_basic_info setup info es caller pixelFormat hsetup]
  refine ⟨?_, ?_, ?_, ?_⟩
  · rw [hc, hcomp]
  · rw [hc, hf, hcomp, hfmt]
  · rw [hc, hf, hcomp, hfmt]
    rintro (h | h)
    · right
      simp [h, toU32]
    · by_cases he : 0 < info.num_extra_channels
      · right
        simp [he, toU32]
      · left
        simp [he, h, toInt32, toU32]
  · intro hord hret
    have hord1 : wellOrdered 1 es = true := by simpa [wellOrdered] using hord
    obtain ⟨hlen, hhdr⟩ := decodeLoop_length setup.allocLimit pixelFormat es 1 _ hord1 hinv hret
    rw [outBufferSize_eq, hhdr, hx, hy, hxs, hys] at hlen
    exact hlen

/-- C10, witness: an RGB source with one extra (alpha) channel. -/
theorem DecodeJpegXlOneShot_components_witness :
    (DecodeJpegXlOneShot setupOk sampleEvents emptyCaller .optimal).state.components = 4 ∧
    (DecodeJpegXlOneShot setupOk sampleEvents emptyCaller .optimal).state.format.num_channels
      = 4 :=
  ((DecodeJpegXlOneShot_components setupOk (basicInfoOf 2 2 8 3 1)
    [.JXL_DEC_COLOR_ENCODING false 0 false [], .JXL_DEC_NEED_IMAGE_OUT_BUFFER true 16 true,
      .JXL_DEC_FULL_IMAGE, .JXL_DEC_SUCCESS] emptyCaller .optimal rfl rfl).2.2.1
    (Or.inl (by decide))).elim (fun h => absurd h.1 (by decide)) id

/-! ## Failure statuses and the order of statuses in the decode loop -/

theorem resizeThrows_of_le (allocLimit : Nat) (v : List Nat) (n : Nat) (h : n ≤ allocLimit) :
    resizeThrows allocLimit v n = false := by
  unfold resizeThrows
  simp
  intro _
  exact h

theorem decodeLoop_failure (allocLimit : Nat) (pixelFormat : JxlDecodingPixelFormat)
    (e : DecEvent) (post : List DecEvent) (he : e.isFailure = true) (pre : List DecEvent) :
    ∀ s : DecState, noSuccess pre = true →
      (decodeLoop allocLimit pixelFormat s (pre ++ e :: post)).ret = some false ∨
      ((decodeLoop allocLimit pixelFormat s (pre ++ e :: post)).ret = none ∧
        sizesWithin allocLimit pre = false) := by
  induction pre with
  | nil =>
    intro s _
    left
    cases e <;> simp [DecEvent.isFailure] at he <;> rfl
  | cons a pre ih =>
    intro s hpre
    cases a with
    | JXL_DEC_ERROR => exact Or.inl rfl
    | JXL_DEC_NEED_MORE_INPUT => exact Or.inl rfl
    | other code => exact Or.inl rfl
    | JXL_DEC_SUCCESS => simp [noSuccess] at hpre
    | JXL_DEC_FULL_IMAGE =>
      simp only [noSuccess] at hpre
      simp only [List.cons_append, decodeLoop, sizesWithin]
      exact ih s hpre
    | JXL_DEC_BASIC_INFO ok info =>
      simp only [noSuccess] at hpre
      simp only [List.cons_append, decodeLoop, sizesWithin]
      split_ifs
      · exact ih _ hpre
      · exact Or.inl rfl
    | JXL_DEC_COLOR_ENCODING sizeOk iccSize getOk icc =>
      simp only [noSuccess] at hpre
      simp only [List.cons_append, decodeLoop, sizesWithin]
      by_cases hle : iccSize ≤ allocLimit
      · rw [resizeThrows_of_le _ _ _ hle]
        simp only [decide_eq_true hle, Bool.true_and, Bool.false_eq_true, if_false]
        split_ifs <;> first | exact ih _ hpre | exact Or.inl rfl
      · simp only [decide_eq_false hle, Bool.false_and, and_true]
        split_ifs <;> first
          | exact Or.inl rfl
          | exact Or.inr rfl
          | exact (ih _ hpre).elim Or.inl (fun h => Or.inr h.1)
    | JXL_DEC_NEED_IMAGE_OUT_BUFFER sizeOk n setOk =>
      simp only [noSuccess] at hpre
      simp only [List.cons_append, decodeLoop, sizesWithin]
      by_cases hle : n ≤ allocLimit
      · simp only [decide_eq_true hle, Bool.true_and]
        by_cases hn : n = outBufferSize s
        · rw [resizeThrows_of_le _ _ _ (hn ▸ hle)]
          simp only [hn, ne_eq, not_true_eq_false, if_false, Bool.false_eq_true]
          split_ifs <;> first | exact ih _ hpre | exact Or.inl rfl
        · simp only [ne_eq, hn, not_false_eq_true, if_true]
          split_ifs <;> exact Or.inl rfl
      · simp only [decide_eq_false hle, Bool.false_and, and_true]
        split_ifs <;> first
          | exact Or.inl rfl
          | exact Or.inr rfl
          | exact (ih _ hpre).elim Or.inl (fun h => Or.inr h.1)

/-- An ICC size beyond what the allocator grants makes `iccProfile->resize`
throw: the call ends without a return value, before the error status is
read. -/
theorem DecodeJpegXlOneShot_resize_throws :
    (DecodeJpegXlOneShot ⟨true, true, true, 10⟩
      [.JXL_DEC_COLOR_ENCODING true 11 true [], .JXL_DEC_ERROR] emptyCaller .optimal).ret
      = none := by
  decide

/-- C11, counterexample: `DecodeJpegXlOneShot` returns true when success is
the first status, when success follows the basic info without any buffer
request, and when a full-image status precedes the basic info. -/
theorem DecodeJpegXlOneShot_order_not_checked :
    (DecodeJpegXlOneShot setupOk [.JXL_DEC_SUCCESS] emptyCaller .optimal).ret = some true ∧
    (DecodeJpegXlOneShot setupOk
      [.JXL_DEC_BASIC_INFO true (basicInfoOf 2 2 8 3 0), .JXL_DEC_SUCCESS]
      emptyCaller .optimal).ret = some true ∧
    (DecodeJpegXlOneShot setupOk
      [.JXL_DEC_FULL_IMAGE, .JXL_DEC_BASIC_INFO true (basicInfoOf 2 2 8 3 0),
        .JXL_DEC_NEED_IMAGE_OUT_BUFFER true 12 true, .JXL_DEC_FULL_IMAGE, .JXL_DEC_SUCCESS]
      emptyCaller .optimal).ret = some true := by
  decide

/-- C11, amended: for every sequence of statuses in which an error status, a
need-more-input status or a status outside the known vocabulary arrives
before any success status, `DecodeJpegXlOneShot` never returns success; and
it returns false whenever no vector `resize` on the way throws, which is so
when every ICC size and output-buffer size the codec reports before that
status is within what the allocator grants. -/
theorem DecodeJpegXlOneShot_failure_status (setup : DecSetup) (pre : List DecEvent)
    (e : DecEvent) (post : List DecEvent) (caller : DecOut)
    (pixelFormat : JxlDecodingPixelFormat)
    (hpre : noSuccess pre = true) (he : e.isFailure = true) :
    (DecodeJpegXlOneShot setup (pre ++ e :: post) caller pixelFormat).ret ≠ some true ∧
    (sizesWithin setup.allocLimit pre = true →
      (DecodeJpegXlOneShot setup (pre ++ e :: post) caller pixelFormat).ret = some false) := by
  have key : (DecodeJpegXlOneShot setup (pre ++ e :: post) caller pixelFormat).ret
        = some false ∨
      ((DecodeJpegXlOneShot setup (pre ++ e :: post) caller pixelFormat).ret = none ∧
        sizesWithin setup.allocLimit pre = false) := by
    unfold DecodeJpegXlOneShot
    simp only []
    split_ifs
    · exact Or.inl rfl
    · exact Or.inl rfl
    · exact Or.inl rfl
    · exact decodeLoop_failure setup.allocLimit pixelFormat e post he pre _ hpre
  rcases key with h | ⟨h, hs⟩
  · exact ⟨by rw [h]; simp, fun _ => h⟩
  · exact ⟨by rw [h]; simp, fun hw => by rw [hs] at hw; simp at hw⟩

/-- C11, witness: an error status after the basic info and the buffer
request. -/
theorem DecodeJpegXlOneShot_failure_status_witness :
    (DecodeJpegXlOneShot setupOk
      [.JXL_DEC_BASIC_INFO true (basicInfoOf 2 2 8 3 1),
        .JXL_DEC_NEED_IMAGE_OUT_BUFFER true 16 true, .JXL_DEC_ERROR, .JXL_DEC_SUCCESS]
      emptyCaller .optimal).ret = some false :=
  (DecodeJpegXlOneShot_failure_status setupOk
    [.JXL_DEC_BASIC_INFO true (basicInfoOf 2 2 8 3 1),
      .JXL_DEC_NEED_IMAGE_OUT_BUFFER true 16 true]
    .JXL_DEC_ERROR [.JXL_DEC_SUCCESS] emptyCaller .optimal rfl rfl).2 (by decide)

/-! ## The signature probe -/

/-- C12, at the failing input: for the empty buffer and for the one-byte
buffer `FF`, which the signature check reports as not enough bytes, `isJXL`
returns true; it returns false only for a buffer reported as invalid. -/
theorem isJXL_short_buffer :
    sampleSignatureCheck [] = .JXL_SIG_NOT_ENOUGH_BYTES ∧
    isJXL sampleSignatureCheck [] = true ∧
    isJXL sampleSignatureCheck [255] = true ∧
    isJXL sampleSignatureCheck [1, 2, 3] = false := by
  decide

theorem isJXL_iff (check : List Nat → JxlSignature) (src : List Nat) :
    isJXL check src = true ↔ check src ≠ .JXL_SIG_INVALID := by
  unfold isJXL
  split_ifs with h
  · simp [← h]
  · simp
    exact fun h' => h h'.symm

/-! ## The basic-info probe against the full decode -/

/-- C13: on a well-formed sequence of statuses (the basic info first and
reported once, then colour encoding, buffer request, full image, success in
any arrangement) on which `DecodeJpegXlOneShot` returns true with
`(xsize, ysize)`, `DecodeBasicInfo` given the same answers returns true with
the same `(xsize, ysize)`, having taken only the basic-info status from the
codec: it never handles a buffer request, and it has no pixel buffer. -/
theorem DecodeBasicInfo_agrees (setup : DecSetup) (getBasicInfoOk : Bool)
    (info : JxlBasicInfo) (es : List DecEvent) (caller : DecOut)
    (pixelFormat : JxlDecodingPixelFormat) (out : DecState) (xsize ysize : Nat)
    (hes : noBasicInfo es = true)
    (hrun : DecodeJpegXlOneShot setup (.JXL_DEC_BASIC_INFO getBasicInfoOk info :: es) caller
      pixelFormat = ⟨some true, out⟩) :
    (DecodeBasicInfo setup (.JXL_DEC_BASIC_INFO getBasicInfoOk info :: es) xsize ysize).ret
      = some true ∧
    (DecodeBasicInfo setup (.JXL_DEC_BASIC_INFO getBasicInfoOk info :: es) xsize ysize).xsize
      = out.xsize ∧
    (DecodeBasicInfo setup (.JXL_DEC_BASIC_INFO getBasicInfoOk info :: es) xsize ysize).ysize
      = out.ysize ∧
    ∀ e ∈ (DecodeBasicInfo setup (.JXL_DEC_BASIC_INFO getBasicInfoOk info :: es) xsize
        ysize).consumed, e.isBufferRequest = false := by
  unfold DecodeJpegXlOneShot at hrun
  simp only [] at hrun
  by_cases h1 : setup.subscribeEventsOk = true
  swap
  · simp [h1] at hrun
  by_cases h2 : setup.setParallelRunnerOk = true
  swap
  · simp [h1, h2] at hrun
  by_cases h3 : setup.setUnpremultiplyAlphaOk = true
  swap
  · simp [h1, h2, h3] at hrun
  simp only [h1, h2, h3, Bool.not_true, Bool.false_eq_true, if_false] at hrun
  cases getBasicInfoOk with
  | false => simp [decodeLoop] at hrun
  | true =>
    simp only [decodeLoop, if_true] at hrun
    obtain ⟨hx, hy⟩ := decodeLoop_keeps_size setup.allocLimit pixelFormat es
      (onBasicInfo pixelFormat (loopEntry pixelFormat caller) info) hes
    rw [hrun] at hx hy
    have hx' : out.xsize = info.xsize := by
      rw [hx]
      unfold onBasicInfo
      simp only []
      split_ifs <;> rfl
    have hy' : out.ysize = info.ysize := by
      rw [hy]
      unfold onBasicInfo
      simp only []
      split_ifs <;> rfl
    simp [DecodeBasicInfo, h1, h2, hx', hy', DecEvent.isBufferRequest]

/-- C13, witness: the decode of a 2x2 8-bit RGBA image. -/
theorem DecodeBasicInfo_agrees_witness :
    (DecodeJpegXlOneShot setupOk sampleEvents emptyCaller .optimal).ret = some true ∧
    (DecodeBasicInfo setupOk sampleEvents 0 0).ret = some true ∧
    (DecodeBasicInfo setupOk sampleEvents 0 0).xsize
      = (DecodeJpegXlOneShot setupOk sampleEvents emptyCaller .optimal).state.xsize :=
  ⟨rfl,
    (DecodeBasicInfo_agrees setupOk true (basicInfoOf 2 2 8 3 1)
      [.JXL_DEC_COLOR_ENCODING false 0 false [], .JXL_DEC_NEED_IMAGE_OUT_BUFFER true 16 true,
        .JXL_DEC_FULL_IMAGE, .JXL_DEC_SUCCESS] emptyCaller .optimal
      (DecodeJpegXlOneShot setupOk sampleEvents emptyCaller .optimal).state 0 0 rfl rfl).1,
    (DecodeBasicInfo_agrees setupOk true (basicInfoOf 2 2 8 3 1)
      [.JXL_DEC_COLOR_ENCODING false 0 false [], .JXL_DEC_NEED_IMAGE_OUT_BUFFER true 16 true,
        .JXL_DEC_FULL_IMAGE, .JXL_DEC_SUCCESS] emptyCaller .optimal
      (DecodeJpegXlOneShot setupOk sampleEvents emptyCaller .optimal).state 0 0 rfl rfl).2.1⟩

/-! ## The records of the HDR encoder -/

theorem hdrTrace_snoc {lib : JxlLib} {pixels : List Nat} {xsize ysize : Nat}
    {numChannels containerBitsPerSample originalBitsPerSample : Int} {isFloat : Bool}
    {compressionOption : JxlCompressionOption} {tr : List EncCall}
    (h : HdrTrace lib pixels xsize ysize numChannels containerBitsPerSample
      originalBitsPerSample isFloat compressionOption tr) (c : EncCall)
    (hc : HdrCall lib pixels xsize ysize numChannels containerBitsPerSample
      originalBitsPerSample isFloat compressionOption c) :
    HdrTrace lib pixels xsize ysize numChannels containerBitsPerSample
      originalBitsPerSample isFloat compressionOption (tr ++ [c]) := by
  intro d hd
  rcases List.mem_append.mp hd with hd | hd
  · exact h d hd
  · simp at hd
    rw [hd]
    exact hc

theorem hdrTrace_iccStep {lib : JxlLib} {pixels : List Nat} {xsize ysize : Nat}
    {numChannels containerBitsPerSample originalBitsPerSample : Int} {isFloat : Bool}
    {compressionOption : JxlCompressionOption} {tr : List EncCall}
    (h : HdrTrace lib pixels xsize ysize numChannels containerBitsPerSample
      originalBitsPerSample isFloat compressionOption tr) (codec : EncCodec) (iccProfile : Option (List Nat)) :
    HdrTrace lib pixels xsize ysize numChannels containerBitsPerSample
      originalBitsPerSample isFloat compressionOption (iccStep codec tr iccProfile).2 := by
  unfold iccStep
  rcases iccProfile with _ | icc
  · exact h
  · by_cases he : icc.isEmpty = true
    · simpa [he] using h
    · simpa [he] using hdrTrace_snoc h (EncCall.JxlEncoderSetICCProfile icc) trivial

theorem hdrTrace_drain {lib : JxlLib} {pixels : List Nat} {xsize ysize : Nat}
    {numChannels containerBitsPerSample originalBitsPerSample : Int} {isFloat : Bool}
    {compressionOption : JxlCompressionOption} {tr : List EncCall}
    (h : HdrTrace lib pixels xsize ysize numChannels containerBitsPerSample
      originalBitsPerSample isFloat compressionOption tr) (compressed : List Nat) (offset avail_out : Nat)
    (pulls : List PullResponse) :
    HdrTrace lib pixels xsize ysize numChannels containerBitsPerSample
      originalBitsPerSample isFloat compressionOption (drainLoop compressed offset avail_out tr pulls).trace := by
  obtain ⟨l, hl, hall⟩ := drainLoop_trace pulls compressed offset avail_out tr
  rw [hl]
  intro d hd
  rcases List.mem_append.mp hd with hd | hd
  · exact h d hd
  · have hp := hall d hd
    cases d <;> simp [EncCall.isProcessOutput] at hp
    trivial

/-- Every call `EncodeJxlHDR` makes carries the record the function builds for
it. -/
theorem EncodeJxlHDR_hdrTrace (lib : JxlLib) (codec : EncCodec)
    (pulls : List PullResponse) (pixels : List Nat) (xsize ysize : Nat)
    (compressed : List Nat) (numChannels containerBitsPerSample originalBitsPerSample : Int)
    (isFloat : Bool) (iccProfile : Option (List Nat))
    (transferFunction : JxlTransferFunctionType) (colorPrimaries : JxlColorPrimariesType)
    (compressionOption : JxlCompressionOption) (compressionDistance : CFloat)
    (effort decodingSpeed : Int) :
    HdrTrace lib pixels xsize ysize numChannels containerBitsPerSample
      originalBitsPerSample isFloat compressionOption
      (EncodeJxlHDR lib codec pulls pixels xsize ysize compressed numChannels
        containerBitsPerSample originalBitsPerSample isFloat iccProfile transferFunction
        colorPrimaries compressionOption compressionDistance effort decodingSpeed).trace := by
  have h0 : HdrTrace lib pixels xsize ysize numChannels containerBitsPerSample
      originalBitsPerSample isFloat compressionOption [] := by
    intro c hc
    simp at hc
  unfold EncodeJxlHDR
  refine tryCall_inv (HdrTrace lib pixels xsize ysize numChannels containerBitsPerSample
      originalBitsPerSample isFloat compressionOption)
    (fun r => HdrTrace lib pixels xsize ysize numChannels containerBitsPerSample
      originalBitsPerSample isFloat compressionOption r.trace)
    ?_ id fun tr hT => ?_
  · exact hdrTrace_snoc h0 _ trivial
  refine tryCall_inv (HdrTrace lib pixels xsize ysize numChannels containerBitsPerSample
      originalBitsPerSample isFloat compressionOption)
    (fun r => HdrTrace lib pixels xsize ysize numChannels containerBitsPerSample
      originalBitsPerSample isFloat compressionOption r.trace)
    ?_ id fun tr hT => ?_
  · exact hdrTrace_snoc hT _ rfl
  refine tryCallIf_inv (HdrTrace lib pixels xsize ysize numChannels containerBitsPerSample
      originalBitsPerSample isFloat compressionOption)
    (fun r => HdrTrace lib pixels xsize ysize numChannels containerBitsPerSample
      originalBitsPerSample isFloat compressionOption r.trace)
    hT ?_ id fun tr hT => ?_
  · exact hdrTrace_snoc hT _ ⟨rfl, rfl⟩
  refine tryCallIf_inv (HdrTrace lib pixels xsize ysize numChannels containerBitsPerSample
      originalBitsPerSample isFloat compressionOption)
    (fun r => HdrTrace lib pixels xsize ysize numChannels containerBitsPerSample
      originalBitsPerSample isFloat compressionOption r.trace)
    (hdrTrace_iccStep hT _ _) ?_ id fun tr hT => ?_
  · exact hdrTrace_snoc (hdrTrace_iccStep hT _ _) _ trivial
  have hT := hdrTrace_snoc hT EncCall.JxlEncoderFrameSettingsCreate trivial
  refine tryCall_inv (HdrTrace lib pixels xsize ysize numChannels containerBitsPerSample
      originalBitsPerSample isFloat compressionOption)
    (fun r => HdrTrace lib pixels xsize ysize numChannels containerBitsPerSample
      originalBitsPerSample isFloat compressionOption r.trace)
    ?_ id fun tr hT => ?_
  · exact hdrTrace_snoc hT _ rfl
  refine tryCall_inv (HdrTrace lib pixels xsize ysize numChannels containerBitsPerSample
      originalBitsPerSample isFloat compressionOption)
    (fun r => HdrTrace lib pixels xsize ysize numChannels containerBitsPerSample
      originalBitsPerSample isFloat compressionOption r.trace)
    ?_ id fun tr hT => ?_
  · exact hdrTrace_snoc hT _ trivial
  refine tryCall_inv (HdrTrace lib pixels xsize ysize numChannels containerBitsPerSample
      originalBitsPerSample isFloat compressionOption)
    (fun r => HdrTrace lib pixels xsize ysize numChannels containerBitsPerSample
      originalBitsPerSample isFloat compressionOption r.trace)
    ?_ id fun tr hT => ?_
  · exact hdrTrace_snoc hT _ trivial
  refine tryCall_inv (HdrTrace lib pixels xsize ysize numChannels containerBitsPerSample
      originalBitsPerSample isFloat compressionOption)
    (fun r => HdrTrace lib pixels xsize ysize numChannels containerBitsPerSample
      originalBitsPerSample isFloat compressionOption r.trace)
    ?_ id fun tr hT => ?_
  · exact hdrTrace_snoc hT _ trivial
  refine tryCallIf_inv (HdrTrace lib pixels xsize ysize numChannels containerBitsPerSample
      originalBitsPerSample isFloat compressionOption)
    (fun r => HdrTrace lib pixels xsize ysize numChannels containerBitsPerSample
      originalBitsPerSample isFloat compressionOption r.trace)
    hT ?_ id fun tr hT => ?_
  · exact hdrTrace_snoc hT _ trivial
  refine tryCallIf_inv (HdrTrace lib pixels xsize ysize numChannels containerBitsPerSample
      originalBitsPerSample isFloat compressionOption)
    (fun r => HdrTrace lib pixels xsize ysize numChannels containerBitsPerSample
      originalBitsPerSample isFloat compressionOption r.trace)
    hT ?_ id fun tr hT => ?_
  · exact hdrTrace_snoc hT _ trivial
  by_cases hsz : pixels.length ≠ expectedSize xsize ysize numChannels containerBitsPerSample
  · simp only [if_pos hsz]
    exact hT
  · simp only [if_neg hsz]
    refine tryCall_inv (HdrTrace lib pixels xsize ysize numChannels containerBitsPerSample
      originalBitsPerSample isFloat compressionOption)
      (fun r => HdrTrace lib pixels xsize ysize numChannels containerBitsPerSample
      originalBitsPerSample isFloat compressionOption r.trace)
      ?_ id fun tr hT => ?_
    · exact hdrTrace_snoc hT _ ⟨rfl, rfl, rfl, not_not.mp hsz⟩
    exact hdrTrace_drain (hdrTrace_snoc hT EncCall.JxlEncoderCloseInput trivial) _ _ _ _

/-- C14: in `EncodeJxlHDR` the exponent bits written to the basic info, to
the frame bit depth and, for four channels, to the alpha channel (both
`alpha_exponent_bits` and the extra-channel info) are one value: 5 for a
16-bit float container, 8 for a 32-bit float container, 0 for integer
containers; and the alpha channel's bits per sample are the base bits per
sample, the original bit depth. -/
theorem EncodeJxlHDR_exponent_bits (lib : JxlLib) (codec : EncCodec)
    (pulls : List PullResponse) (pixels : List Nat) (xsize ysize : Nat)
    (compressed : List Nat) (numChannels containerBitsPerSample originalBitsPerSample : Int)
    (isFloat : Bool) (iccProfile : Option (List Nat))
    (transferFunction : JxlTransferFunctionType) (colorPrimaries : JxlColorPrimariesType)
    (compressionOption : JxlCompressionOption) (compressionDistance : CFloat)
    (effort decodingSpeed : Int) :
    (∀ info, EncCall.JxlEncoderSetBasicInfo info ∈
      (EncodeJxlHDR lib codec pulls pixels xsize ysize compressed numChannels
        containerBitsPerSample originalBitsPerSample isFloat iccProfile transferFunction
        colorPrimaries compressionOption compressionDistance effort decodingSpeed).trace →
      info.exponent_bits_per_sample = specExponentBits isFloat containerBitsPerSample ∧
      info.bits_per_sample = toU32 originalBitsPerSample ∧
      (numChannels = 4 →
        info.alpha_exponent_bits = specExponentBits isFloat containerBitsPerSample ∧
        info.alpha_bits = info.bits_per_sample)) ∧
    (∀ index info, EncCall.JxlEncoderSetExtraChannelInfo index info ∈
      (EncodeJxlHDR lib codec pulls pixels xsize ysize compressed numChannels
        containerBitsPerSample originalBitsPerSample isFloat iccProfile transferFunction
        colorPrimaries compressionOption compressionDistance effort decodingSpeed).trace →
      info.exponent_bits_per_sample = specExponentBits isFloat containerBitsPerSample ∧
      info.bits_per_sample = toU32 originalBitsPerSample) ∧
    (∀ depth, EncCall.JxlEncoderSetFrameBitDepth depth ∈
      (EncodeJxlHDR lib codec pulls pixels xsize ysize compressed numChannels
        containerBitsPerSample originalBitsPerSample isFloat iccProfile transferFunction
        colorPrimaries compressionOption compressionDistance effort decodingSpeed).trace →
      depth.exponent_bits_per_sample = specExponentBits isFloat containerBitsPerSample ∧
      depth.bits_per_sample = toU32 originalBitsPerSample) ∧
    specExponentBits true 16 = 5 ∧ specExponentBits true 32 = 8 ∧
    (∀ container, specExponentBits false container = 0) := by
  have key := EncodeJxlHDR_hdrTrace lib codec pulls pixels xsize ysize compressed numChannels
    containerBitsPerSample originalBitsPerSample isFloat iccProfile transferFunction
    colorPrimaries compressionOption compressionDistance effort decodingSpeed
  refine ⟨?_, ?_, ?_, rfl, rfl, fun _ => rfl⟩
  · intro info hmem
    have h : info = hdrBasicInfo lib xsize ysize numChannels containerBitsPerSample
        originalBitsPerSample isFloat compressionOption := key _ hmem
    subst h
    unfold hdrBasicInfo specExponentBits
    cases isFloat <;> by_cases h4 : numChannels = 4 <;> simp [h4]
  · intro index info hmem
    have h : index = 0 ∧ info = hdrChannelInfo lib xsize ysize numChannels
        containerBitsPerSample originalBitsPerSample isFloat compressionOption := key _ hmem
    rw [h.2]
    unfold hdrChannelInfo hdrBasicInfo specExponentBits
    cases isFloat <;> by_cases h4 : numChannels = 4 <;> simp [h4]
  · intro depth hmem
    have h : depth = hdrBitDepth lib xsize ysize numChannels containerBitsPerSample
        originalBitsPerSample isFloat compressionOption := key _ hmem
    subst h
    unfold hdrBitDepth hdrBasicInfo specExponentBits
    cases isFloat <;> by_cases h4 : numChannels = 4 <;> simp [h4]

/-- C14, witness: a 2x2 RGBA image of 16-bit floats. -/
theorem EncodeJxlHDR_exponent_bits_witness :
    EncCall.JxlEncoderSetExtraChannelInfo 0 ⟨16, 5, false⟩ ∈
      (EncodeJxlHDR sampleLib acceptAll [⟨.JXL_ENC_SUCCESS, [255, 10]⟩] (List.replicate 32 0)
        2 2 [] 4 16 16 true none .TransferLinear .PrimariesBT2020 .lossless 0 7
        0).trace ∧
    (5 : Nat) = specExponentBits true 16 :=
  ⟨by decide,
    ((EncodeJxlHDR_exponent_bits sampleLib acceptAll [⟨.JXL_ENC_SUCCESS, [255, 10]⟩]
      (List.replicate 32 0) 2 2 [] 4 16 16 true none .TransferLinear .PrimariesBT2020 .lossless
      0 7 0).2.1 0 ⟨16, 5, false⟩ (by decide)).1⟩

/-! ## Metadata boxes, sample width and wrap-around in the HDR encoder -/

/-- C15, at the failing input: the calls `EncodeJxlHDR` makes for a 2x2 RGBA
8-bit image when the codec accepts every call.  The function has no EXIF or
XMP parameter, and no call attaches a metadata box. -/
theorem EncodeJxlHDR_calls_without_boxes :
    (EncodeJxlHDR sampleLib acceptAll [⟨.JXL_ENC_SUCCESS, [255, 10]⟩] redPixels 2 2 [] 4 8 8
      false none .TransferSRGB .PrimariesSRGB .lossless 0 7 0).trace =
      [.JxlEncoderSetParallelRunner,
        .JxlEncoderSetBasicInfo
          { xsize := 2, ysize := 2, bits_per_sample := 8, exponent_bits_per_sample := 0,
            uses_original_profile := true, num_color_channels := 3, num_extra_channels := 1,
            alpha_bits := 8, alpha_exponent_bits := 0, orientation := 1 },
        .JxlEncoderSetExtraChannelInfo 0 ⟨8, 0, false⟩,
        .JxlEncoderSetColorEncoding (sampleLib.JxlColorEncodingSetToSRGB false),
        .JxlEncoderFrameSettingsCreate,
        .JxlEncoderSetFrameBitDepth ⟨8, 0⟩,
        .JxlEncoderSetFrameLossless true,
        .JxlEncoderFrameSettingsSetOption .JXL_ENC_FRAME_SETTING_EFFORT 7,
        .JxlEncoderFrameSettingsSetOption .JXL_ENC_FRAME_SETTING_DECODING_SPEED 0,
        .JxlEncoderAddImageFrame ⟨4, .JXL_TYPE_UINT8⟩ redPixels 16,
        .JxlEncoderCloseInput,
        .JxlEncoderProcessOutput 64] := by
  decide

/-- C16, at the failing input: of the six combinations of container depth and
float flag, four give a sample type as wide as the `bytesPerSample` of the
size check; a 32-bit integer container gives `JXL_TYPE_UINT16` (2 bytes)
against 4, and an 8-bit float container gives `JXL_TYPE_FLOAT` (4 bytes)
against 1.  A 1x1 RGB call with a 32-bit integer container passes the size
check with 12 bytes and submits them as 16-bit samples. -/
theorem EncodeJxlHDR_sample_width :
    bytesPerSample 8 = sizeOfDataType (hdrPixelFormat 3 8 false).data_type ∧
    bytesPerSample 16 = sizeOfDataType (hdrPixelFormat 3 16 false).data_type ∧
    bytesPerSample 16 = sizeOfDataType (hdrPixelFormat 3 16 true).data_type ∧
    bytesPerSample 32 = sizeOfDataType (hdrPixelFormat 3 32 true).data_type ∧
    bytesPerSample 32 = 4 ∧ sizeOfDataType (hdrPixelFormat 3 32 false).data_type = 2 ∧
    bytesPerSample 8 = 1 ∧ sizeOfDataType (hdrPixelFormat 3 8 true).data_type = 4 ∧
    EncCall.JxlEncoderAddImageFrame ⟨3, .JXL_TYPE_UINT16⟩ (List.replicate 12 0) 12 ∈
      (EncodeJxlHDR sampleLib acceptAll [⟨.JXL_ENC_SUCCESS, [255, 10]⟩] (List.replicate 12 0)
        1 1 [] 3 32 16 false none .TransferSRGB .PrimariesSRGB .lossless 0 7 0).trace := by
  decide

/-- C17, at the failing input: for `xsize = ysize = 2^31`, four channels and
an 8-bit container the exact product is 2^64, the expected size computed in
`size_t` is 0, and the call with an empty buffer passes the size check and
submits the empty buffer as a frame. -/
theorem EncodeJxlHDR_size_check_wraps :
    2147483648 * 2147483648 * 4 * bytesPerSample 8 = 2 ^ 64 ∧
    expectedSize 2147483648 2147483648 4 8 = 0 ∧
    EncCall.JxlEncoderAddImageFrame ⟨4, .JXL_TYPE_UINT8⟩ [] 0 ∈
      (EncodeJxlHDR sampleLib acceptAll [⟨.JXL_ENC_SUCCESS, [255, 10]⟩] [] 2147483648
        2147483648 [] 4 8 8 false none .TransferSRGB .PrimariesSRGB .lossless 0 7 0).trace ∧
    (EncodeJxlHDR sampleLib acceptAll [⟨.JXL_ENC_SUCCESS, [255, 10]⟩] [] 2147483648
      2147483648 [] 4 8 8 false none .TransferSRGB .PrimariesSRGB .lossless 0 7 0).ret
      = some true := by
  decide

/-- Where the size check is exact: when `numChannels` is not negative and the
exact product is below 2^64, the expected size is the exact product. -/
theorem expectedSize_exact (xsize ysize : Nat) (numChannels containerBitsPerSample : Int)
    (hc : 0 ≤ numChannels)
    (hlt : xsize * ysize * numChannels.toNat * bytesPerSample containerBitsPerSample
      < 2 ^ 64) :
    expectedSize xsize ysize numChannels containerBitsPerSample =
      xsize * ysize * numChannels.toNat * bytesPerSample containerBitsPerSample := by
  rw [expectedSize_eq, toSizeT_of_nonneg _ hc, mul_mod_inner]
  exact Nat.mod_eq_of_lt hlt

end JxlWorker
